import Mathlib

/-!
# whatsup: request handling and resource mutation

A shallow embedding of the Go sources of the status-and-following server
(packages `model`, `db`, `api`) together with theorems about them.

Conventions of the embedding

* A Go `string` is a Lean `String`; `len(s)` is `s.utf8ByteSize`, and
  `for i, r := range s` visits the characters of `s` with `i` the byte
  offset of the character.
* A `time.Time` is an `Int`: nanoseconds elapsed since the zero `Time`
  (January 1, year 1, 00:00 UTC).  `Before`, `After`, `Equal` are `<`, `>`, `=`.
* A Go `map[string]T` is an association list with pairwise distinct keys;
  a nil pointer or nil map is `none`.
* Go `int` is a 64 bit two's complement integer: arithmetic on it is wrapped
  with `wrapInt64`.
* A document accepted by `encoding/json` is a value of `Json`; the text level
  of the codec is not modelled.
* The SQL engine, the file system, the password verifier, the emoji table,
  the URL parser and the image decoder are outside the repository.  Their
  observable behaviour is modelled by the store `DB`, by explicit fault flags,
  by the record `Ext`, and by the decoder passed to `setAvatar`.
* `userPath` is modelled in two steps: its decision `userPathDispatch`, a value
  of `Dispatch`, and the call of the handler decided on.
* The per-account mutex only serialises concurrent callers; in this sequential
  model `Lock` and `Unlock` change nothing, but locking the mutex of an account
  that has none is a nil dereference and is kept as `DbErr.nilMutex`.
-/

namespace Whatsup

/-! ## Basic types -/

/-- Nanoseconds since the zero value of `time.Time`. -/
abbrev Time := Int

/-- The zero value of `time.Time`. -/
def Time.zero : Time := 0

/-- Go `t.IsZero()`. -/
def Time.IsZero (t : Time) : Bool := decide (t = 0)

/-- Go `t.Before(u)`. -/
def Time.Before (t u : Time) : Bool := decide (t < u)

/-- Go `t.After(u)`. -/
def Time.After (t u : Time) : Bool := decide (t > u)

/-- Go `t.Equal(u)`. -/
def Time.Equal (t u : Time) : Bool := decide (t = u)

/-- One second, `time.Second`, in nanoseconds. -/
def Second : Int := 1000000000

/-- Go `t.Truncate(d)`: round down to a multiple of `d` since the zero time. -/
def Time.Truncate (t : Time) (d : Int) : Time := if d ≤ 0 then t else t - t % d

/-- Go `time.Unix(0, 0)`: the Unix epoch, 62135596800 seconds after the zero time. -/
def unixEpoch : Time := 62135596800 * Second

/-- Wrap an integer into the range of a 64 bit Go `int`. -/
def wrapInt64 (n : Int) : Int := (n + 2 ^ 63) % 2 ^ 64 - 2 ^ 63

/-- Go map read `m[k]` on a `map[string]string`: the zero value when absent. -/
def mapGet (m : List (String × String)) (k : String) : String :=
  match m.find? (fun e => e.1 == k) with
  | some e => e.2
  | none => ""

/-- Go map write `m[k] = v` on a `map[string]string`. -/
def mapSet : List (String × String) → String → String → List (String × String)
  | [], k, v => [(k, v)]
  | e :: es, k, v => if e.1 = k then (k, v) :: es else e :: mapSet es k v

/-- JSON documents as `encoding/json` sees them once the text is accepted.
`num` is a number literal without fraction or exponent, `frac` any other
number literal. -/
inductive Json where
  | null
  | bool (b : Bool)
  | num (n : Int)
  | frac (lit : String)
  | str (s : String)
  | arr (xs : List Json)
  | obj (kvs : List (String × Json))

/-! ## Package model: strings -/

/-- The loop of `validString` from byte offset `i` on: `rs` are the code points
still to visit.  Mirrors `for i, r := range s`, where `i` is the byte offset. -/
def validStringFrom : List Char → Nat → Int → Bool
  | [], _, _ => true
  | r :: rs, i, max =>
    if (i : Int) = max then false
    else if r.toNat ≤ 0x1F ∨ r.toNat = 0x7F ∨ (0x80 ≤ r.toNat ∧ r.toNat ≤ 0x9F) then false
    else validStringFrom rs (i + r.utf8Size) max

/-- Go `validString(s, max)` of `model/status.go`. -/
def validString (s : String) (max : Int) : Bool :=
  validStringFrom s.data 0 max

/-- A code point is a Unicode control character: U+0000–U+001F, U+007F, U+0080–U+009F. -/
def isControl (r : Char) : Bool :=
  decide (r.toNat ≤ 0x1F ∨ r.toNat = 0x7F ∨ (0x80 ≤ r.toNat ∧ r.toNat ≤ 0x9F))

/-- What the documentation of `validString` asks for: no control character and
at most `max` code points. -/
def validStringSpec (s : String) (max : Int) : Bool :=
  s.data.all (fun r => !isControl r) && decide ((s.data.length : Int) ≤ max)

/-! ## Package model: status -/

/-- Go `model.AvatarMap`: `Paths` is a map that may be nil, `Num` a pointer. -/
structure AvatarMap where
  Paths : Option (List (String × String))
  Num : Option Int

/-- Go map read `av.Paths[k]`, which also works on a nil map. -/
def AvatarMap.path (av : AvatarMap) (k : String) : String :=
  match av.Paths with
  | some m => mapGet m k
  | none => ""

/-- Go `model.Status`: every settable field is a pointer, nil meaning unset. -/
structure Status where
  Avatar : Option AvatarMap
  Name : Option String
  /-- Go field `Status`, renamed because the structure has that name. -/
  StatusText : Option String
  Emoji : Option String
  Media : Option String
  MediaType : Option Int
  URI : Option String
  UpdatedAt : Time

/-- The zero value `var status model.Status`. -/
def Status.zero : Status :=
  { Avatar := none, Name := none, StatusText := none, Emoji := none, Media := none,
    MediaType := none, URI := none, UpdatedAt := Time.zero }

/-- Go `(*Status).IsEmpty`. -/
def Status.IsEmpty (s : Status) : Bool :=
  if s.Avatar.isNone && s.Name.isNone && s.StatusText.isNone && s.Emoji.isNone &&
      s.Media.isNone && s.MediaType.isNone && s.URI.isNone then
    true
  else
    false

/-- Collaborators outside the repository. -/
structure Ext where
  /-- `argon2.VerifyEncoded(password, hash)`; `none` is a returned error. -/
  verifyEncoded : String → String → Option Bool
  /-- `isemoji.IsEmoji`. -/
  isEmoji : String → Bool
  /-- Whether `url.Parse` returns no error. -/
  urlParseOk : String → Bool

/-- Go `strings.ContainsAny(s, chars)`. -/
def containsAny (s : String) (chars : List Char) : Bool :=
  s.data.any (fun c => chars.contains c)

/-- Go `(*Status).Validate`: `none` is a nil error, `some msg` the error text. -/
def Status.Validate (ext : Ext) (s : Status) : Option String :=
  if (match s.Avatar with
      | some av => decide (av.path "original" = "")
      | none => false) then
    some "avatar map exists but \"original\" isn't set"
  else if (match s.Name with
      | some v => !validString v 40
      | none => false) then
    some "name is longer than 40 code points or contains control characters"
  else if (match s.StatusText with
      | some v => !validString v 100
      | none => false) then
    some "status is longer than 100 code points or contains control characters"
  else if (match s.Emoji with
      | some v => !ext.isEmoji v
      | none => false) then
    some "emoji field is not a single fully-qualified emoji"
  else if (match s.Media with
      | some v => !validString v 100
      | none => false) then
    some "media is longer than 100 code points or contains control characters"
  else if (match s.MediaType with
      | some v => decide (v < 0 ∨ v > 5)
      | none => false) then
    some "media_type value is undefined"
  else
    match s.URI with
    | some u =>
      if decide (u.utf8ByteSize > 512) || containsAny u [' ', '\t', '\r', '\n']
          || !u.data.contains ':' then
        some "uri field is longer than 512 bytes, contains whitespace, or doesn't have a colon"
      else if !ext.urlParseOk u then
        some "uri field is not a valid URI"
      else
        none
    | none => none

/-! ## Package model: following -/

/-- Go `model.FollowingUsernames`, a `map[string]struct{}`: its keys. -/
abbrev FollowingUsernames := List String

/-- Go `fu[u] = struct{}{}`. -/
def FollowingUsernames.add (fu : FollowingUsernames) (u : String) : FollowingUsernames :=
  if u ∈ fu then fu else fu ++ [u]

/-- Go `delete(fu, u)`. -/
def FollowingUsernames.delete (fu : FollowingUsernames) (u : String) : FollowingUsernames :=
  fu.filter (fun x => x ≠ u)

/-- Go `model.Following`; `Usernames` may be a nil map. -/
structure Following where
  UpdatedAt : Time
  Usernames : Option FollowingUsernames

/-- Decoding a JSON document into a `[]string`: `null` gives the nil slice, a
`null` element leaves the zero value, anything but a string is a type error. -/
def decodeStrings : Json → Option (List String)
  | .null => some []
  | .arr xs => xs.mapM (fun x =>
      match x with
      | .str s => some s
      | .null => some ""
      | _ => none)
  | _ => none

/-- Go `FollowingUsernames.UnmarshalJSON` applied to the map `fu`. -/
def FollowingUsernames.UnmarshalJSON (fu : FollowingUsernames) (data : Json) :
    Option FollowingUsernames :=
  match decodeStrings data with
  | none => none
  | some usernames => some (usernames.foldl FollowingUsernames.add fu)

/-- Go `FollowingUsernames.MarshalJSON`: the keys as a JSON array of strings. -/
def FollowingUsernames.MarshalJSON (fu : FollowingUsernames) : Json :=
  .arr (fu.map Json.str)

/-! ## Decoding with `encoding/json` -/

/-- The smallest member of the case-folding orbit of a rune, for the runes whose
orbit meets ASCII: the letters, U+017F (long s) and U+212A (Kelvin sign).  Other
runes never fold to an ASCII letter and are left alone. -/
def foldRune (c : Char) : Char :=
  if 'a' ≤ c ∧ c ≤ 'z' then Char.ofNat (c.toNat - 32)
  else if c = Char.ofNat 0x17F then 'S'
  else if c = Char.ofNat 0x212A then 'K'
  else c

/-- Go `foldName` of `encoding/json`, used to compare an object key with a field name. -/
def foldName (s : String) : List Char := s.data.map foldRune

/-- Field lookup of `encoding/json`: the field with exactly this name, else the
first field whose name equals the key under case folding. -/
def findField (fields : List String) (key : String) : Option String :=
  match fields.find? (fun f => f = key) with
  | some f => some f
  | none => fields.find? (fun f => foldName f = foldName key)

/-- The JSON names of the fields of `model.Status`, in declaration order
(`UpdatedAt` is tagged `json:"-"`). -/
def statusFields : List String :=
  ["avatar", "name", "status", "emoji", "media", "media_type", "uri"]

/-- Decoding a JSON value into a `*string` field. -/
def decodeStringPtr : Json → Option (Option String)
  | .null => some none
  | .str s => some (some s)
  | _ => none

/-- Decoding a JSON value into a `*int` field: the literal must be an integer
that fits 64 bits. -/
def decodeIntPtr : Json → Option (Option Int)
  | .null => some none
  | .num n => if -(2 ^ 63) ≤ n ∧ n < 2 ^ 63 then some (some n) else none
  | _ => none

/-- Decoding a JSON object into an existing `map[string]string`. -/
def decodeStringMap (m : List (String × String)) (kvs : List (String × Json)) :
    Option (List (String × String)) :=
  kvs.foldlM (fun acc kv =>
    match kv.2 with
    | .str v => some (mapSet acc kv.1 v)
    | .null => some (mapSet acc kv.1 "")
    | _ => none) m

/-- Go `(*AvatarMap).UnmarshalJSON`: `json.Unmarshal(data, &av.Paths)`. -/
def AvatarMap.UnmarshalJSON (av : AvatarMap) (data : Json) : Option AvatarMap :=
  match data with
  | .null => some { av with Paths := none }
  | .obj kvs =>
    match decodeStringMap (av.Paths.getD []) kvs with
    | some m => some { av with Paths := some m }
    | none => none
  | _ => none

/-- Decoding the value of one object member into the field it names. -/
def decodeStatusField (st : Status) (field : String) (v : Json) : Option Status :=
  if field = "avatar" then
    match v with
    | .null => some { st with Avatar := none }
    | _ =>
      match AvatarMap.UnmarshalJSON (st.Avatar.getD { Paths := none, Num := none }) v with
      | some av => some { st with Avatar := some av }
      | none => none
  else if field = "name" then (decodeStringPtr v).map (fun x => { st with Name := x })
  else if field = "status" then (decodeStringPtr v).map (fun x => { st with StatusText := x })
  else if field = "emoji" then (decodeStringPtr v).map (fun x => { st with Emoji := x })
  else if field = "media" then (decodeStringPtr v).map (fun x => { st with Media := x })
  else if field = "media_type" then (decodeIntPtr v).map (fun x => { st with MediaType := x })
  else if field = "uri" then (decodeStringPtr v).map (fun x => { st with URI := x })
  else some st

/-- The members of a JSON object decoded one after the other into a `Status`.
With `disallowUnknown` a key naming no field is an error
(`Decoder.DisallowUnknownFields`); without it the member is skipped. -/
def decodeStatusMembers (disallowUnknown : Bool) (kvs : List (String × Json)) (st : Status) :
    Option Status :=
  kvs.foldlM (fun acc kv =>
    match findField statusFields kv.1 with
    | some f => decodeStatusField acc f kv.2
    | none => if disallowUnknown then none else some acc) st

/-- Go `json.Unmarshal(clientJSON, &status)` for a `model.Status` holding its
zero value: `none` is a returned error.  The argument is the document read
from the body, `none` when the body is not valid JSON. -/
def unmarshalStatus (body : Option Json) : Option Status :=
  match body with
  | none => none
  | some .null => some Status.zero
  | some (.obj kvs) => decodeStatusMembers false kvs Status.zero
  | some _ => none

/-- Go `setFollowingJSON` of `api/following.go`. -/
structure setFollowingJSON where
  Add : List String
  Remove : List String

/-- A `[]string` field while `encoding/json` decodes into it: its elements,
and the elements that its backing array still holds beyond its length. -/
structure GoSlice where
  vals : List String
  spare : List String

/-- The elements of a JSON array decoded one after the other into the elements
of a slice whose backing array holds `old` (and zero values beyond): a string
is stored, `null` leaves the element as it is, anything else is a type error. -/
def decodeElems : List String → List Json → Option (List String)
  | _, [] => some []
  | old, x :: xs =>
    match (match x with
           | .str v => some v
           | .null => some (old.headD "")
           | _ => none) with
    | none => none
    | some v => (decodeElems old.tail xs).map (fun vs => v :: vs)

/-- Decoding a JSON value into a `[]string` field that already holds `s`.
`null` sets the nil slice and `[]` a new empty slice.  A non-empty array is
decoded element by element into the backing array already there, which is
extended with zero values when it is too short, and the length is set to the
number of elements; the elements of the backing array beyond it stay. -/
def decodeSlice (s : GoSlice) : Json → Option GoSlice
  | .null => some { vals := [], spare := [] }
  | .arr [] => some { vals := [], spare := [] }
  | .arr xs =>
    (decodeElems (s.vals ++ s.spare) xs).map (fun vs =>
      { vals := vs, spare := (s.vals ++ s.spare).drop xs.length })
  | _ => none

/-- The two fields of a `setFollowingJSON` while it is decoded. -/
structure setFollowingSlices where
  Add : GoSlice
  Remove : GoSlice

/-- The members of a JSON object decoded into a `setFollowingJSON` by a decoder
on which `DisallowUnknownFields` was called.  A key that occurs again is
decoded into the field as the earlier occurrence left it. -/
def decodeSetFollowingMembers (kvs : List (String × Json)) (d : setFollowingSlices) :
    Option setFollowingSlices :=
  kvs.foldlM (fun acc kv =>
    match findField ["add", "remove"] kv.1 with
    | some f =>
      if f = "add" then (decodeSlice acc.Add kv.2).map (fun l => { acc with Add := l })
      else (decodeSlice acc.Remove kv.2).map (fun l => { acc with Remove := l })
    | none => none) d

/-- Go `dec.Decode(&data)` in `setFollowing`, on a body already known to be valid JSON. -/
def decodeSetFollowing (doc : Json) : Option setFollowingJSON :=
  match doc with
  | .null => some { Add := [], Remove := [] }
  | .obj kvs =>
    (decodeSetFollowingMembers kvs
      { Add := { vals := [], spare := [] }, Remove := { vals := [], spare := [] } }).map
      (fun d => { Add := d.Add.vals, Remove := d.Remove.vals })
  | _ => none

/-! ## HTTP requests and responses -/

/-- What a handler reads from `*http.Request`. -/
structure Request where
  /-- Go `r.Method`. -/
  Method : String := "GET"
  /-- Go `r.URL.Path`. -/
  Path : String := ""
  /-- Result of `r.BasicAuth()`: username and password when `ok`. -/
  BasicAuth : Option (String × String) := none
  /-- Header `If-Modified-Since`: `none` when absent, `some none` when
  `http.ParseTime` fails on it, `some (some t)` when it parses to `t`. -/
  IfModifiedSince : Option (Option Time) := none
  /-- Go `r.URL.Query()["user"]`: `none` when the key is absent. -/
  QueryUser : Option (List String) := none
  /-- The bytes of the request body. -/
  Body : List Nat := []
  /-- The JSON document the body holds, `none` when the body is not valid JSON. -/
  BodyJson : Option Json := none

/-- Go `statusQueryUser` of `api/status.go`: one entry of the batch query array. -/
structure statusQueryUser where
  Username : String
  Code : Nat := 0
  Msg : String := ""
  Data : Option Status := none

/-- What is written to the body of a response: a text, the array of the batch
status query (encoded by `json.Marshal`), or a stored JSON document as it is. -/
inductive RespBody where
  | text (s : String)
  | users (us : List statusQueryUser)
  | raw (doc : Json)

/-- What a handler leaves in the `http.ResponseWriter`; a handler that writes
nothing leaves the default, status 200 with an empty body.  `LastModified` is
the time formatted into the header of that name.  Where Go formats an error of
a library with `%v`, only the fixed part of the text is kept. -/
structure Response where
  Code : Nat := 200
  LastModified : Option Time := none
  ContentType : Option String := none
  Body : RespBody := .text ""

/-- Go `http.StatusText` for the codes this server writes. -/
def StatusText (code : Nat) : String :=
  if code = 400 then "Bad Request"
  else if code = 401 then "Unauthorized"
  else if code = 404 then "Not Found"
  else if code = 405 then "Method Not Allowed"
  else if code = 413 then "Request Entity Too Large"
  else if code = 500 then "Internal Server Error"
  else ""

/-- Go `writeStatusCodePage(w, code)`. -/
def writeStatusCodePage (code : Nat) : Response :=
  { Code := code, Body := .text (StatusText code) }

/-- Go `config.TomlConfig`, the part the handlers read: `Users` maps a
username to its encoded password hash. -/
structure TomlConfig where
  Users : List (String × String)

/-- Go `checkAuth(username, w, r)`: the returned bool and the response written, if any. -/
def checkAuth (ext : Ext) (conf : TomlConfig) (username : String) (r : Request) :
    Bool × Option Response :=
  match r.BasicAuth with
  | none => (false, some (writeStatusCodePage 401))
  | some (authUsername, password) =>
    if authUsername ≠ username then
      (false, some { Code := 400, Body := .text "Authentication username doesn't match username in URL" })
    else
      match conf.Users.lookup username with
      | none => (false, some (writeStatusCodePage 404))
      | some hash =>
        match ext.verifyEncoded password hash with
        | none =>
          (false, some { Code := 500, Body := .text "Error verifying password, not your fault.\nContact your server administrator or try again later." })
        | some ok =>
          if !ok then (false, some { Code := 401, Body := .text "Incorrect password" })
          else (true, none)

/-! ## Package db -/

/-- A value bound to a `?` of an SQL statement. -/
inductive SqlVal where
  | text (s : String)
  | int (n : Int)
  | time (t : Time)
  deriving DecidableEq

/-- A row of table `statuses`, without its key `username`. -/
structure StatusRow where
  updated_at : Time
  avatar : String
  avatar_num : Int
  name : String
  status : String
  emoji : String
  media : String
  media_type : Int
  uri : String
  deriving DecidableEq

/-- A row of table `following`, without its key `username`; `usernames` is
the stored JSON document. -/
structure FollowingRow where
  updated_at : Time
  usernames : Json

/-- The stored data: both tables keyed by `username`, the file
`<Data.Dir>/avatars/<username>/original` of each account that has one, and
the accounts that have an entry in `avatarMutexes`. -/
structure DB where
  statuses : List (String × StatusRow)
  following : List (String × FollowingRow)
  avatarFiles : List (String × List Nat)
  avatarMutexes : List String

/-- Errors of the storage layer. -/
inductive DbErr where
  /-- Go `db.ErrNotFound`, and `sql.ErrNoRows` where it is passed on. -/
  | notFound
  /-- An error of the SQL engine. -/
  | sql
  /-- An error of the file system. -/
  | io
  /-- An error of `encoding/json`. -/
  | json
  /-- Panic: `Lock` on the nil mutex of an account absent from `avatarMutexes`. -/
  | nilMutex
  deriving DecidableEq

/-- Go `db.GetUser`; `fail` says the query fails in the SQL engine. -/
def GetUser (fail : Bool) (db : DB) (username : String) : Except DbErr Status :=
  if fail then .error .sql
  else
    match db.statuses.lookup username with
    | none => .error .notFound
    | some row =>
      .ok { Avatar := some { Paths := some (mapSet [] "original" row.avatar),
                             Num := some row.avatar_num },
            Name := some row.name, StatusText := some row.status, Emoji := some row.emoji,
            Media := some row.media, MediaType := some row.media_type, URI := some row.uri,
            UpdatedAt := row.updated_at }

/-- The slices `cols` and `args` that `db.SetUser` builds before it constructs
the statement. -/
def setUserColsArgs (username : String) (data : Status) (now : Time) :
    List String × List SqlVal :=
  let cols : List String := []
  let args : List SqlVal := []
  let (cols, args) :=
    match data.Avatar with
    | some av =>
      let cols := cols ++ ["avatar"]
      let args := args ++ [SqlVal.text (av.path "original")]
      match av.Num with
      | some n => (cols ++ ["avatar_num"], args ++ [SqlVal.int n])
      | none => (cols, args)
    | none => (cols, args)
  let (cols, args) :=
    match data.Name with
    | some v => (cols ++ ["name"], args ++ [SqlVal.text v])
    | none => (cols, args)
  let (cols, args) :=
    match data.StatusText with
    | some v => (cols ++ ["status"], args ++ [SqlVal.text v])
    | none => (cols, args)
  let (cols, args) :=
    match data.Emoji with
    | some v => (cols ++ ["emoji"], args ++ [SqlVal.text v])
    | none => (cols, args)
  let (cols, args) :=
    match data.Media with
    | some v => (cols ++ ["media"], args ++ [SqlVal.text v])
    | none => (cols, args)
  let (cols, args) :=
    match data.MediaType with
    | some v => (cols ++ ["media_type"], args ++ [SqlVal.int v])
    | none => (cols, args)
  let (cols, args) :=
    match data.URI with
    | some v => (cols ++ ["uri"], args ++ [SqlVal.text v])
    | none => (cols, args)
  let cols := cols ++ ["updated_at"]
  let args := args ++ [SqlVal.time now, SqlVal.text username]
  (cols, args)

/-- The effect of `column=?` with `v` bound to it, on one row of `statuses`. -/
def assignCol (row : StatusRow) (col : String) (v : SqlVal) : StatusRow :=
  if col = "updated_at" then
    match v with
    | .time t => { row with updated_at := t }
    | _ => row
  else if col = "avatar" then
    match v with
    | .text x => { row with avatar := x }
    | _ => row
  else if col = "avatar_num" then
    match v with
    | .int n => { row with avatar_num := n }
    | _ => row
  else if col = "name" then
    match v with
    | .text x => { row with name := x }
    | _ => row
  else if col = "status" then
    match v with
    | .text x => { row with status := x }
    | _ => row
  else if col = "emoji" then
    match v with
    | .text x => { row with emoji := x }
    | _ => row
  else if col = "media" then
    match v with
    | .text x => { row with media := x }
    | _ => row
  else if col = "media_type" then
    match v with
    | .int n => { row with media_type := n }
    | _ => row
  else if col = "uri" then
    match v with
    | .text x => { row with uri := x }
    | _ => row
  else row

/-- All assignments of an `UPDATE statuses SET c1=?, c2=?, ...` applied to one
row: the i-th argument is bound to the i-th column. -/
def assignCols (row : StatusRow) (cols : List String) (args : List SqlVal) : StatusRow :=
  (cols.zip args).foldl (fun r ca => assignCol r ca.1 ca.2) row

/-- The SQL engine executing the statement of `db.SetUser`,
`UPDATE statuses SET ` + `strings.Join(cols, "=?, ")` + `=? WHERE username=?`,
with `args` bound in order: the argument after those of the columns selects
the rows. -/
def execUpdateStatuses (table : List (String × StatusRow)) (cols : List String)
    (args : List SqlVal) : List (String × StatusRow) :=
  match args.get? cols.length with
  | some (.text username) =>
    table.map (fun kr => if kr.1 = username then (kr.1, assignCols kr.2 cols args) else kr)
  | _ => table

/-- Go `db.SetUser`; `fail` says `db.Exec` fails, `now` is `time.Now()`.
Returns the store afterwards and the returned error. -/
def SetUser (fail : Bool) (db : DB) (username : String) (data : Status) (now : Time) :
    DB × Option DbErr :=
  let ca := setUserColsArgs username data now
  if fail then (db, some .sql)
  else ({ db with statuses := execUpdateStatuses db.statuses ca.1 ca.2 }, none)

/-- What may go wrong outside the program during `SetAvatar` and `RemoveAvatar`. -/
structure AvatarFaults where
  /-- `os.Mkdir` fails with an error other than `fs.ErrExist`. -/
  mkdirFails : Bool := false
  /-- `os.OpenFile` fails. -/
  openFails : Bool := false
  /-- `f.Write` fails after having written this many bytes. -/
  writeFails : Option Nat := none
  /-- `os.Remove` fails with an error other than `fs.ErrNotExist`. -/
  removeFails : Bool := false
  /-- The `SELECT avatar_num` query fails in the SQL engine. -/
  queryFails : Bool := false
  /-- `db.Exec` of `SetUser` fails. -/
  execFails : Bool := false

/-- Replace or create the entry of `key` in a keyed list. -/
def putEntry {α : Type} : List (String × α) → String → α → List (String × α)
  | [], key, v => [(key, v)]
  | e :: es, key, v => if e.1 = key then (key, v) :: es else e :: putEntry es key v

/-- Writing `data` at offset 0 of a file holding `old`, as `f.Write` does on a
file opened without `O_TRUNC` and without `O_APPEND`: the bytes of `old`
beyond the written ones stay. -/
def writeAtStart (old data : List Nat) : List Nat :=
  data ++ old.drop data.length

/-- Go `db.SetAvatar`; `now` is the `time.Now()` of the `SetUser` call.
Returns the store afterwards and the returned error.  The map `m` of the
source is written once and never read, and is left out. -/
def SetAvatar (f : AvatarFaults) (db : DB) (username : String) (img : List Nat) (now : Time) :
    DB × Option DbErr :=
  if username ∉ db.avatarMutexes then (db, some .nilMutex)
  else if f.mkdirFails then (db, some .io)
  else if f.openFails then (db, some .io)
  else
    -- os.OpenFile(imgpath, os.O_WRONLY|os.O_CREATE, 0644): the file is created
    -- empty when it does not exist, and left as it is when it does
    let old := (db.avatarFiles.lookup username).getD []
    match f.writeFails with
    | some k =>
      ({ db with avatarFiles := putEntry db.avatarFiles username (writeAtStart old (img.take k)) },
        some .io)
    | none =>
      let db1 := { db with avatarFiles := putEntry db.avatarFiles username (writeAtStart old img) }
      if f.queryFails then (db1, some .sql)
      else
        match db1.statuses.lookup username with
        | none => (db1, some .notFound)
        | some row =>
          let prevAvatarNum := wrapInt64 (row.avatar_num + 1)
          let avatarPaths := mapSet [] "original"
            ("/.well-known/fmrl/avatars/" ++ username ++ "/original")
          SetUser f.execFails db1 username
            { Status.zero with Avatar := some { Paths := some avatarPaths,
                                                Num := some prevAvatarNum } } now

/-- Go `db.RemoveAvatar`. -/
def RemoveAvatar (f : AvatarFaults) (db : DB) (username : String) (now : Time) :
    DB × Option DbErr :=
  if username ∉ db.avatarMutexes then (db, some .nilMutex)
  else if f.removeFails then (db, some .io)
  else
    let db1 := { db with avatarFiles := db.avatarFiles.filter (fun e => e.1 ≠ username) }
    SetUser f.execFails db1 username
      { Status.zero with Avatar := some { Paths := some [], Num := none } } now

/-- Go `db.GetFollowing`; `fail` says the query fails in the SQL engine. -/
def GetFollowing (fail : Bool) (db : DB) (username : String) : Except DbErr Following :=
  if fail then .error .sql
  else
    match db.following.lookup username with
    | none => .error .notFound
    | some row =>
      match FollowingUsernames.UnmarshalJSON [] row.usernames with
      | none => .error .json
      | some m => .ok { UpdatedAt := row.updated_at, Usernames := some m }

/-- Go `db.GetFollowingRaw`. -/
def GetFollowingRaw (fail : Bool) (db : DB) (username : String) : Except DbErr (Json × Time) :=
  if fail then .error .sql
  else
    match db.following.lookup username with
    | none => .error .notFound
    | some row => .ok (row.usernames, row.updated_at)

/-- Go `db.SetFollowing`; `fail` says `db.Exec` fails, `now` is `time.Now()`. -/
def SetFollowing (fail : Bool) (db : DB) (username : String) (data : Following) (now : Time) :
    DB × Option DbErr :=
  match data.Usernames with
  | none => (db, none)
  | some m =>
    let jsonArray := FollowingUsernames.MarshalJSON m
    if fail then (db, some .sql)
    else
      ({ db with following := db.following.map (fun kr =>
          if kr.1 = username then (kr.1, { updated_at := now, usernames := jsonArray })
          else kr) }, none)

/-! ## Package api -/

/-- The path under which `userPath` is registered. -/
def userPathLead : String := "/.well-known/fmrl/user/"

/-- Go `r.URL.Path[len("/.well-known/fmrl/user/") : len(r.URL.Path)-tailLen]`;
`none` when the slice bounds are out of range, which panics. -/
def pathUsername (path : String) (tailLen : Nat) : Option String :=
  if path.utf8ByteSize < userPathLead.utf8ByteSize + tailLen then none
  else some (path.extract ⟨userPathLead.utf8ByteSize⟩ ⟨path.utf8ByteSize - tailLen⟩)

/-- The class `[a-z0-9_\.]` of `followingUsernameRE`. -/
def isLocalChar (c : Char) : Bool :=
  ('a' ≤ c && c ≤ 'z') || ('0' ≤ c && c ≤ '9') || c == '_' || c == '.'

/-- The class `[\w\.]` of `followingUsernameRE`; `\w` is `[0-9A-Za-z_]`. -/
def isDomainChar (c : Char) : Bool :=
  ('0' ≤ c && c ≤ '9') || ('A' ≤ c && c ≤ 'Z') || ('a' ≤ c && c ≤ 'z') || c == '_' || c == '.'

/-- Go `followingUsernameRE.MatchString(s)` for the expression
`^@[a-z0-9_\.]{1,40}@[\w\.]+$`.  Since `@` is in neither class, the first
repetition has to take the whole run of class characters after the first `@`. -/
def followingUsernameRE (s : String) : Bool :=
  match s.data with
  | '@' :: rest =>
    let loc := rest.takeWhile isLocalChar
    decide (1 ≤ loc.length) && decide (loc.length ≤ 40) &&
      (match rest.dropWhile isLocalChar with
       | '@' :: dom => !dom.isEmpty && dom.all isDomainChar
       | _ => false)
  | _ => false

/-- How a loop of `setFollowing` over usernames stops early. -/
inductive LoopStop where
  /-- The entry does not match `followingUsernameRE`: the handler answers 400. -/
  | invalid (u : String)
  /-- Panic: assignment to an entry of a nil map. -/
  | nilMap

/-- The first loop of `setFollowing`: every entry of `data.Add` is checked and
then added to `fu.Usernames`. -/
def addLoop : List String → Option FollowingUsernames →
    Except LoopStop (Option FollowingUsernames)
  | [], fu => .ok fu
  | u :: us, fu =>
    if !followingUsernameRE u then .error (.invalid u)
    else
      match fu with
      | none => .error .nilMap
      | some m => addLoop us (some (m.add u))

/-- The second loop of `setFollowing`, over `data.Remove`; `delete` on a nil
map does nothing. -/
def removeLoop : List String → Option FollowingUsernames →
    Except LoopStop (Option FollowingUsernames)
  | [], fu => .ok fu
  | u :: us, fu =>
    if !followingUsernameRE u then .error (.invalid u)
    else removeLoop us (fu.map (fun m => m.delete u))

/-- The response of `setFollowing` when one of its loops stops early. -/
def loopStopResponse : LoopStop → Option Response
  | .invalid u => some { Code := 400, Body := .text ("Invalid global username: " ++ u) }
  | .nilMap => none

/-- Go `setFollowing`.  `getFail` and `setFail` say that the query of
`db.GetFollowing` and the `db.Exec` of `db.SetFollowing` fail; `now` is the
`time.Now()` of `db.SetFollowing`.  Returns the response (`none` when the
handler panics) and the store afterwards. -/
def setFollowing (ext : Ext) (conf : TomlConfig) (getFail setFail : Bool) (db : DB)
    (r : Request) (now : Time) : Option Response × DB :=
  match pathUsername r.Path "/following".utf8ByteSize with
  | none => (none, db)
  | some username =>
    if (conf.Users.lookup username).isNone then (some (writeStatusCodePage 404), db)
    else
      let (ok, w) := checkAuth ext conf username r
      if !ok then (some (w.getD {}), db)
      else if r.Body.length > 1 * 1024 * 1024 then (some (writeStatusCodePage 413), db)
      else
        match r.BodyJson with
        | none => (some { Code := 400, Body := .text "Received JSON is invalid" }, db)
        | some doc =>
          match decodeSetFollowing doc with
          | none =>
            (some { Code := 400, Body := .text "Bad value type or unrecognized field: " }, db)
          | some data =>
            if data.Add.length = 0 ∧ data.Remove.length = 0 then
              (some { Code := 400, Body := .text "No usernames to add or remove" }, db)
            else
              match GetFollowing getFail db username with
              | .error _ =>
                (some { Code := 500, Body := .text "Error retrieving following list, not your fault.\nContact your server administrator or try again later." }, db)
              | .ok fu =>
                match addLoop data.Add fu.Usernames with
                | .error e => (loopStopResponse e, db)
                | .ok m1 =>
                  match removeLoop data.Remove m1 with
                  | .error e => (loopStopResponse e, db)
                  | .ok m2 =>
                    match SetFollowing setFail db username { fu with Usernames := m2 } now with
                    | (db2, some _) =>
                      (some { Code := 500, Body := .text "Error saving new following list, not your fault.\nContact your server administrator or try again later." }, db2)
                    | (db2, none) => (some {}, db2)

/-- Go `setStatus`.  `execFail` says the `db.Exec` of `db.SetUser` fails; `now`
is the `time.Now()` of `db.SetUser`.  Returns the response (`none` when the
handler panics) and the store afterwards. -/
def setStatus (ext : Ext) (conf : TomlConfig) (execFail : Bool) (db : DB)
    (r : Request) (now : Time) : Option Response × DB :=
  match pathUsername r.Path 0 with
  | none => (none, db)
  | some username =>
    if (conf.Users.lookup username).isNone then (some (writeStatusCodePage 404), db)
    else
      let (ok, w) := checkAuth ext conf username r
      if !ok then (some (w.getD {}), db)
      else if r.Body.length > 2048 then (some (writeStatusCodePage 413), db)
      else
        match unmarshalStatus r.BodyJson with
        | none => (some { Code := 400, Body := .text "Sent JSON is invalid: " }, db)
        | some status =>
          if status.Avatar.isSome then
            (some { Code := 400,
                    Body := .text "Avatar field should not be set, client not coded correctly" },
              db)
          else if status.IsEmpty then (some {}, db)
          else
            match status.Validate ext with
            | some msg => (some { Code := 400, Body := .text msg }, db)
            | none =>
              match SetUser execFail db username status now with
              | (db2, some _) =>
                (some { Code := 500, Body := .text "Error saving new status, not your fault.\nContact your server administrator or try again later." }, db2)
              | (db2, none) => (some {}, db2)

/-- One round of the loop of `statusQuery`: the entry for `username` and the
value of `newest` after it.  `fail` says the query of `db.GetUser` fails. -/
def statusQueryEntry (conf : TomlConfig) (fail : Bool) (db : DB) (ifModTime : Time)
    (username : String) (newest : Time) : statusQueryUser × Time :=
  let user : statusQueryUser := { Username := username }
  if (conf.Users.lookup username).isNone then
    ({ user with Code := 404, Msg := StatusText 404 }, newest)
  else
    match GetUser fail db username with
    | .error _ => ({ user with Code := 500, Msg := StatusText 500 }, newest)
    | .ok status =>
      if status.UpdatedAt.Before ifModTime then ({ user with Code := 304 }, newest)
      else
        ({ user with Code := 200, Data := some status },
          if status.UpdatedAt.After newest then status.UpdatedAt else newest)

/-- The loop of `statusQuery` from index `i` on; `fails i` says the query of
`db.GetUser` fails in round `i`. -/
def statusQueryLoop (conf : TomlConfig) (fails : Nat → Bool) (db : DB) (ifModTime : Time) :
    List String → Nat → Time → List statusQueryUser × Time
  | [], _, newest => ([], newest)
  | username :: rest, i, newest =>
    let e := statusQueryEntry conf (fails i) db ifModTime username newest
    let r := statusQueryLoop conf fails db ifModTime rest (i + 1) e.2
    (e.1 :: r.1, r.2)

/-- Go `statusQuery`.  The store is only read.  The branch for an error of
`json.Marshal(users)` is left out: the entries hold strings, integers and
avatar maps read by `GetUser`, whose number is set, and encoding those does not
fail. -/
def statusQuery (conf : TomlConfig) (fails : Nat → Bool) (db : DB) (r : Request) : Response :=
  if r.Path ≠ "/.well-known/fmrl/users" then writeStatusCodePage 404
  else
    match r.QueryUser with
    | none => writeStatusCodePage 400
    | some usernames =>
      let ifModTime : Time :=
        match r.IfModifiedSince with
        | some (some t) => t
        | _ => Time.zero
      let (users, newest) := statusQueryLoop conf fails db ifModTime usernames 0 Time.zero
      let lastModified :=
        if newest.IsZero then
          if ifModTime.IsZero then unixEpoch else ifModTime
        else newest
      { Code := 200, LastModified := some lastModified, ContentType := some "application/json",
        Body := .users users }

/-- The time of the header `If-Modified-Since` as `statusQuery` and
`getFollowing` use it: the zero time when the header is absent or does not parse. -/
def ifModTimeOf (r : Request) : Time :=
  match r.IfModifiedSince with
  | some (some t) => t
  | _ => Time.zero

/-- Go `getFollowing`; `fail` says the query of `db.GetFollowingRaw` fails.
The store is only read.  Returns the response, `none` when the handler panics. -/
def getFollowing (ext : Ext) (conf : TomlConfig) (fail : Bool) (db : DB) (r : Request) :
    Option Response :=
  match pathUsername r.Path "/following".utf8ByteSize with
  | none => none
  | some username =>
    if (conf.Users.lookup username).isNone then some (writeStatusCodePage 404)
    else
      let (ok, w) := checkAuth ext conf username r
      if !ok then some (w.getD {})
      else
        match GetFollowingRaw fail db username with
        | .error _ => some (writeStatusCodePage 500)
        | .ok (following, updatedAt) =>
          let ifModTime : Time := ifModTimeOf r
          if updatedAt.Before ifModTime || (updatedAt.Truncate Second).Equal ifModTime then
            some { Code := 304, LastModified := some updatedAt }
          else
            some { Code := 200, LastModified := some updatedAt,
                   ContentType := some "application/json", Body := .raw following }

/-- Go `MaxAvatarSize` of `api/api.go`. -/
def MaxAvatarSize : Nat := 4 * 1024 * 1024

/-- What `image.Decode` returns on the bytes of a body. -/
inductive ImageDecode where
  /-- The error `image.ErrFormat`. -/
  | formatErr
  /-- Any other error. -/
  | otherErr
  /-- An image whose bounds have this width and height. -/
  | ok (dx dy : Int)

/-- Go `setAvatar`; `decode` is `image.Decode`, `f` what the environment does
during `db.SetAvatar` or `db.RemoveAvatar`.  The body is read through
`http.MaxBytesReader` with limit `MaxAvatarSize+1`: at most that many bytes are
read, with an error when the body is longer.  Returns the response (`none`
when the handler panics) and the store afterwards. -/
def setAvatar (ext : Ext) (conf : TomlConfig) (decode : List Nat → ImageDecode)
    (f : AvatarFaults) (db : DB) (r : Request) (now : Time) : Option Response × DB :=
  match pathUsername r.Path "/avatar".utf8ByteSize with
  | none => (none, db)
  | some username =>
    if (conf.Users.lookup username).isNone then (some (writeStatusCodePage 404), db)
    else
      let (ok, w) := checkAuth ext conf username r
      if !ok then (some (w.getD {}), db)
      else if r.Method = "DELETE" then
        match RemoveAvatar f db username now with
        | (db2, some .nilMutex) => (none, db2)
        | (db2, some _) =>
          (some { Code := 500, Body := .text "Error deleting avatar, not your fault.\nContact your server administrator or try again later." }, db2)
        | (db2, none) => (some {}, db2)
      else
        let imgdata := r.Body.take (MaxAvatarSize + 1)
        let err : Bool := decide (r.Body.length > MaxAvatarSize + 1)
        if imgdata.length = MaxAvatarSize + 1 then (some (writeStatusCodePage 413), db)
        else if err then (some (writeStatusCodePage 500), db)
        else if imgdata.length = 0 then
          (some { Code := 400, Body := .text "No avatar image data provided" }, db)
        else
          match decode imgdata with
          | .formatErr =>
            (some { Code := 400, Body := .text "Image must be JPEG or PNG only" }, db)
          | .otherErr => (some { Code := 400, Body := .text "Failed to decode image: " }, db)
          | .ok dx dy =>
            if dx ≠ dy then (some { Code := 400, Body := .text "Image is not square" }, db)
            else
              match SetAvatar f db username imgdata now with
              | (db2, some .nilMutex) => (none, db2)
              | (db2, some _) =>
                (some { Code := 500, Body := .text "Error saving new avatar, not your fault.\nContact your server administrator or try again later." }, db2)
              | (db2, none) => (some {}, db2)

/-- Go `strings.Count(s, "/")`. -/
def countSlashes (s : String) : Nat := s.data.count '/'

/-- Go `strings.HasSuffix(s, suffix)`. -/
def hasSuffix (s suffix : String) : Bool := suffix.data.isSuffixOf s.data

/-- What `userPath` does with a request: it answers itself, or it calls one of
the four handlers. -/
inductive Dispatch where
  | respond (resp : Response)
  | setStatus
  | setAvatar
  | getFollowing
  | setFollowing

/-- The decision of Go `userPath`. -/
def userPathDispatch (r : Request) : Dispatch :=
  if r.Method ≠ "PUT" ∧ r.Method ≠ "PATCH" ∧ r.Method ≠ "DELETE" ∧ r.Method ≠ "GET" then
    .respond { Code := 405 }
  else if r.Path = "/.well-known/fmrl/user/" then .respond (writeStatusCodePage 404)
  else if r.Method = "PATCH" ∧ countSlashes r.Path = 4 then .setStatus
  else if (r.Method = "PUT" ∨ r.Method = "DELETE") ∧ hasSuffix r.Path "/avatar" = true ∧
      r.Path.utf8ByteSize > "/.well-known/fmrl/user//avatar".utf8ByteSize then .setAvatar
  else if hasSuffix r.Path "/following" = true ∧
      r.Path.utf8ByteSize > "/.well-known/fmrl/user//following".utf8ByteSize then
    if r.Method = "GET" then .getFollowing
    else if r.Method = "PATCH" then .setFollowing
    else .respond { Code := 405 }
  else .respond (writeStatusCodePage 400)

/-- What the environment does during a request handled by `userPath`. -/
structure HandlerFaults where
  /-- The query of `db.GetFollowing` or `db.GetFollowingRaw` fails. -/
  getFail : Bool := false
  /-- The `db.Exec` of `db.SetFollowing` fails. -/
  setFail : Bool := false
  /-- The `db.Exec` of `db.SetUser` called by `setStatus` fails. -/
  execFail : Bool := false
  /-- Faults during `db.SetAvatar` and `db.RemoveAvatar`. -/
  avatar : AvatarFaults := {}

/-- Go `userPath`: the decision carried out. -/
def userPath (ext : Ext) (conf : TomlConfig) (decode : List Nat → ImageDecode)
    (hf : HandlerFaults) (db : DB) (r : Request) (now : Time) : Option Response × DB :=
  match userPathDispatch r with
  | .respond resp => (some resp, db)
  | .setStatus => setStatus ext conf hf.execFail db r now
  | .setAvatar => setAvatar ext conf decode hf.avatar db r now
  | .getFollowing => (getFollowing ext conf hf.getFail db r, db)
  | .setFollowing => setFollowing ext conf hf.getFail hf.setFail db r now

/-! ## Package main -/

/-- The bytes of a Go string, `[]byte(s)`. -/
def goBytes (s : String) : List Nat :=
  (s.data.flatMap String.utf8EncodeChar).map UInt8.toNat

/-- Go `validUsername` of `main.go`. -/
def validUsername (username : String) : Bool :=
  if username.utf8ByteSize > 40 ∨ username.utf8ByteSize = 0 then false
  else
    (goBytes username).all (fun b => !(decide (b < 0x30) || (decide (b ≥ 0x3A) && decide (b ≤ 0x60))
      || decide (b ≥ 0x7B)))

/-- A byte of the character set `abcdefghijklmnopqrstuvwxyz0123456789_`. -/
def isUsernameByte (b : Nat) : Bool :=
  (decide (0x61 ≤ b) && decide (b ≤ 0x7A)) || (decide (0x30 ≤ b) && decide (b ≤ 0x39))
    || decide (b = 0x5F)

/-- What the documentation of `validUsername` asks for: 1 to 40 bytes, all of
the character set. -/
def validUsernameSpec (username : String) : Bool :=
  decide (1 ≤ username.utf8ByteSize) && decide (username.utf8ByteSize ≤ 40)
    && (goBytes username).all isUsernameByte

/-! ## Package model: encoding the avatar map -/

/-- Lexicographic order on byte sequences. -/
def bytesLt : List Nat → List Nat → Bool
  | _, [] => false
  | [], _ :: _ => true
  | a :: as, b :: bs => if a < b then true else if b < a then false else bytesLt as bs

/-- The order in which `json.Marshal` writes the keys of a map: that of their bytes. -/
def keyLt (a b : String) : Bool := bytesLt (goBytes a) (goBytes b)

/-- Insertion of a member into the members of a JSON object kept in the
order of their keys. -/
def insertByKey (e : String × Json) : List (String × Json) → List (String × Json)
  | [] => [e]
  | x :: xs => if keyLt e.1 x.1 then e :: x :: xs else x :: insertByKey e xs

/-- The members of a JSON object in the order of their keys, the order in
which `json.Marshal` writes a map. -/
def sortByKey (l : List (String × Json)) : List (String × Json) :=
  l.foldr insertByKey []

/-- Go `strconv.Itoa`. -/
def Itoa (n : Int) : String := toString n

/-- Go `(*AvatarMap).MarshalJSON`: the document written; `none` when the
method panics on the nil pointer `av.Num`. -/
def AvatarMap.MarshalJSON (av : AvatarMap) : Option Json :=
  if av.Paths.isNone ∨ (av.Paths.getD []).length = 0 ∨ av.path "original" = "" then
    some .null
  else
    match av.Num with
    | none => none
    | some n =>
      some (.obj (sortByKey ((av.Paths.getD []).map
        (fun kv => (kv.1, Json.str (kv.2 ++ "?" ++ Itoa n))))))

/-! ## Batch status query: what is specified -/

/-- The entry the specification gives a requested username, from its own
lookup only: 404 when it is not provisioned, 500 when its row cannot be read,
304 when its `updated_at` is before `ifModTime`, else 200 with the status. -/
def entryFor (conf : TomlConfig) (fail : Bool) (db : DB) (ifModTime : Time)
    (username : String) : statusQueryUser :=
  match conf.Users.lookup username with
  | none => { Username := username, Code := 404, Msg := "Not Found" }
  | some _ =>
    match GetUser fail db username with
    | .error _ => { Username := username, Code := 500, Msg := "Internal Server Error" }
    | .ok status =>
      if status.UpdatedAt < ifModTime then { Username := username, Code := 304 }
      else { Username := username, Code := 200, Data := some status }

/-- The `updated_at` of the entries with code 200. -/
def okTimes (us : List statusQueryUser) : List Time :=
  us.filterMap (fun e => if e.Code = 200 then e.Data.map Status.UpdatedAt else none)

/-! ## Sequences of avatar calls -/

/-- One call of the avatar operations of package db on an account, together
with what the environment does during the call and the clock reading. -/
inductive AvatarCall where
  | set (f : AvatarFaults) (img : List Nat) (now : Time)
  | remove (f : AvatarFaults) (now : Time)

/-- The store after the call and the error it returned. -/
def AvatarCall.run (db : DB) (username : String) : AvatarCall → DB × Option DbErr
  | .set f img now => SetAvatar f db username img now
  | .remove f now => RemoveAvatar f db username now

/-- The store after a sequence of calls on one account all of which return no
error; `none` when one of them returns an error. -/
def runAvatarCalls (db : DB) (username : String) : List AvatarCall → Option DB
  | [] => some db
  | c :: cs =>
    match c.run db username with
    | (db2, none) => runAvatarCalls db2 username cs
    | (_, some _) => none

/-- The specified effect of a call that returns no error on the row of the
account: an upload raises `avatar_num` by one, a removal keeps `avatar_num`
and empties the avatar path. -/
def AvatarCall.raisesOrKeeps (c : AvatarCall) (rowA rowB : StatusRow) : Prop :=
  match c with
  | .set _ _ _ => rowB.avatar_num = rowA.avatar_num + 1
  | .remove _ _ => rowB.avatar_num = rowA.avatar_num ∧ rowB.avatar = ""

/-- The number of `SetAvatar` calls in a sequence. -/
def countSets : List AvatarCall → Nat
  | [] => 0
  | .set _ _ _ :: cs => countSets cs + 1
  | .remove _ _ :: cs => countSets cs

/-! ## Sample data used to instantiate the theorems -/

/-- Collaborators for the samples: the password `secret` verifies against the
hash `hash-of-secret`, the hash `corrupt` makes verification fail with an error. -/
def sampleExt : Ext :=
  { verifyEncoded := fun password hash =>
      if hash = "corrupt" then none
      else some (password == "secret" && hash == "hash-of-secret"),
    isEmoji := fun s => s == "🙂",
    urlParseOk := fun _ => true }

/-- A configuration with the single account `alice`. -/
def sampleConf : TomlConfig := { Users := [("alice", "hash-of-secret")] }

/-- The row of `alice` in `statuses`; `updated_at` is 2024-01-01 00:00:00 UTC. -/
def sampleRow : StatusRow :=
  { updated_at := 63839664000 * Second, avatar := "/.well-known/fmrl/avatars/alice/original",
    avatar_num := 3, name := "Alice", status := "reading", emoji := "", media := "",
    media_type := 0, uri := "" }

/-- A store in which `alice` follows `@bob@example.com` and has an avatar file of three bytes. -/
def sampleDB : DB :=
  { statuses := [("alice", sampleRow)],
    following := [("alice", { updated_at := 63839664000 * Second,
                              usernames := .arr [.str "@bob@example.com"] })],
    avatarFiles := [("alice", [1, 2, 3])],
    avatarMutexes := ["alice"] }

/-- The bytes of a text of ASCII characters. -/
def asciiBytes (s : String) : List Nat := s.data.map Char.toNat

/-- A Following-set request of `alice` that adds two usernames and removes two,
one of them also added. -/
def sampleFollowingRequest : Request :=
  { Method := "PATCH",
    Path := "/.well-known/fmrl/user/alice/following",
    BasicAuth := some ("alice", "secret"),
    Body := asciiBytes "\x7b\"add\":[\"@carol@example.org\",\"@dave@example.org\"],\"remove\":[\"@dave@example.org\"]\x7d",
    BodyJson := some (.obj [("add", .arr [.str "@carol@example.org", .str "@dave@example.org"]),
                            ("remove", .arr [.str "@dave@example.org"])]) }

/-- Two uploads of `alice` with a removal in between. -/
def sampleCalls : List AvatarCall :=
  [.set {} [7, 7] (63839664060 * Second), .remove {} (63839664120 * Second),
   .set {} [8] (63839664180 * Second)]

/-- A Following-set request of `alice` with a valid entry followed by one that
has no domain part. -/
def sampleInvalidFollowingRequest : Request :=
  { Method := "PATCH",
    Path := "/.well-known/fmrl/user/alice/following",
    BasicAuth := some ("alice", "secret"),
    Body := asciiBytes "\x7b\"add\":[\"@carol@example.org\",\"@dave\"]\x7d",
    BodyJson := some (.obj [("add", .arr [.str "@carol@example.org", .str "@dave"])]) }

/-- A batch status query for a name that is not provisioned and for `alice`,
with an `If-Modified-Since` before the `updated_at` of `alice`. -/
def sampleStatusQueryRequest : Request :=
  { Method := "GET",
    Path := "/.well-known/fmrl/users",
    QueryUser := some ["ghost", "alice"],
    IfModifiedSince := some (some (63839660000 * Second)) }

/-- A Following-get request of `alice` with the given `If-Modified-Since`. -/
def sampleGetFollowingRequest (ifModifiedSince : Option (Option Time)) : Request :=
  { Method := "GET",
    Path := "/.well-known/fmrl/user/alice/following",
    BasicAuth := some ("alice", "secret"),
    IfModifiedSince := ifModifiedSince }

/-- A Status-set request of `alice` whose body is the given text, holding the
given document. -/
def sampleStatusRequest (text : String) (doc : Json) : Request :=
  { Method := "PATCH",
    Path := "/.well-known/fmrl/user/alice",
    BasicAuth := some ("alice", "secret"),
    Body := asciiBytes text,
    BodyJson := some doc }

/-! ## Lemmas on keyed lists and on the following set -/

theorem lookup_map_key {α : Type} (table : List (String × α)) (k k2 : String) (f : α → α) :
    (table.map (fun kr => if kr.1 = k then (kr.1, f kr.2) else kr)).lookup k2
      = (table.lookup k2).map (fun v => if k2 = k then f v else v) := by
  induction table with
  | nil => rfl
  | cons e es ih =>
    obtain ⟨a, b⟩ := e
    simp only [List.map_cons]
    by_cases h : a = k
    · rw [if_pos h]
      simp only [List.lookup_cons]
      by_cases h2 : k2 = a
      · have hb : (k2 == a) = true := by simpa using h2
        simp [hb, h2, h]
      · have hb : (k2 == a) = false := by simpa using h2
        simp only [hb]
        exact ih
    · rw [if_neg h]
      simp only [List.lookup_cons]
      by_cases h2 : k2 = a
      · have hb : (k2 == a) = true := by simpa using h2
        have h3 : ¬ k2 = k := by rw [h2]; exact h
        simp [hb, h3]
      · have hb : (k2 == a) = false := by simpa using h2
        simp only [hb]
        exact ih

theorem mem_add (fu : FollowingUsernames) (u v : String) :
    u ∈ FollowingUsernames.add fu v ↔ u ∈ fu ∨ u = v := by
  unfold FollowingUsernames.add
  split
  · constructor
    · intro h; exact Or.inl h
    · rintro (h | h)
      · exact h
      · subst h; assumption
  · simp

theorem mem_foldl_add (l : List String) (fu : FollowingUsernames) (u : String) :
    u ∈ l.foldl FollowingUsernames.add fu ↔ u ∈ fu ∨ u ∈ l := by
  induction l generalizing fu with
  | nil => simp
  | cons v vs ih =>
    simp only [List.foldl_cons, ih, mem_add, List.mem_cons]
    tauto

theorem mem_delete (fu : FollowingUsernames) (u v : String) :
    u ∈ FollowingUsernames.delete fu v ↔ u ∈ fu ∧ u ≠ v := by
  simp [FollowingUsernames.delete]

theorem mem_foldl_delete (l : List String) (fu : FollowingUsernames) (u : String) :
    u ∈ l.foldl FollowingUsernames.delete fu ↔ u ∈ fu ∧ u ∉ l := by
  induction l generalizing fu with
  | nil => simp
  | cons v vs ih =>
    simp only [List.foldl_cons, ih, mem_delete, List.mem_cons]
    tauto

theorem nodup_add (fu : FollowingUsernames) (v : String) (h : fu.Nodup) :
    (FollowingUsernames.add fu v).Nodup := by
  unfold FollowingUsernames.add
  split
  · exact h
  · rename_i hv
    rw [List.nodup_append]
    refine ⟨h, List.nodup_singleton v, ?_⟩
    intro a ha hb
    simp only [List.mem_singleton] at hb
    subst hb
    exact hv ha

theorem nodup_foldl_add (l : List String) (fu : FollowingUsernames) (h : fu.Nodup) :
    (l.foldl FollowingUsernames.add fu).Nodup := by
  induction l generalizing fu with
  | nil => simpa using h
  | cons v vs ih => exact ih _ (nodup_add fu v h)

theorem nodup_foldl_delete (l : List String) (fu : FollowingUsernames) (h : fu.Nodup) :
    (l.foldl FollowingUsernames.delete fu).Nodup := by
  induction l generalizing fu with
  | nil => simpa using h
  | cons v vs ih => exact ih _ (List.Nodup.filter _ h)

theorem foldl_add_of_nodup (l : List String) (fu : FollowingUsernames)
    (h : (fu ++ l).Nodup) : l.foldl FollowingUsernames.add fu = fu ++ l := by
  induction l generalizing fu with
  | nil => simp
  | cons v vs ih =>
    have hv : v ∉ fu := by
      intro hv
      rw [List.nodup_append] at h
      exact h.2.2 hv (List.mem_cons_self v vs)
    have h2 : ((fu ++ [v]) ++ vs).Nodup := by simpa using h
    simp only [List.foldl_cons]
    have : FollowingUsernames.add fu v = fu ++ [v] := by
      simp [FollowingUsernames.add, hv]
    rw [this, ih _ h2]
    simp

theorem decodeStrings_marshal (fu : FollowingUsernames) :
    decodeStrings (FollowingUsernames.MarshalJSON fu) = some fu := by
  unfold FollowingUsernames.MarshalJSON decodeStrings
  induction fu with
  | nil => rfl
  | cons v vs ih =>
    simp only [List.map_cons, List.mapM_cons] at ih ⊢
    rw [ih]
    rfl

theorem unmarshal_marshal (fu : FollowingUsernames) (h : fu.Nodup) :
    FollowingUsernames.UnmarshalJSON [] (FollowingUsernames.MarshalJSON fu) = some fu := by
  unfold FollowingUsernames.UnmarshalJSON
  rw [decodeStrings_marshal]
  have := foldl_add_of_nodup fu [] (by simpa using h)
  simp [this]

theorem addLoop_valid (l : List String) (m : FollowingUsernames)
    (h : ∀ u ∈ l, followingUsernameRE u = true) :
    addLoop l (some m) = .ok (some (l.foldl FollowingUsernames.add m)) := by
  induction l generalizing m with
  | nil => rfl
  | cons v vs ih =>
    have hv : followingUsernameRE v = true := h v (List.mem_cons_self v vs)
    simp only [addLoop, hv, List.foldl_cons]
    exact ih _ (fun u hu => h u (List.mem_cons_of_mem v hu))

theorem removeLoop_valid (l : List String) (m : FollowingUsernames)
    (h : ∀ u ∈ l, followingUsernameRE u = true) :
    removeLoop l (some m) = .ok (some (l.foldl FollowingUsernames.delete m)) := by
  induction l generalizing m with
  | nil => rfl
  | cons v vs ih =>
    have hv : followingUsernameRE v = true := h v (List.mem_cons_self v vs)
    simp only [removeLoop, hv, List.foldl_cons, Option.map_some']
    exact ih _ (fun u hu => h u (List.mem_cons_of_mem v hu))

theorem checkAuth_true (ext : Ext) (conf : TomlConfig) (username : String) (r : Request)
    (h : (checkAuth ext conf username r).1 = true) :
    checkAuth ext conf username r = (true, none) := by
  unfold checkAuth at h ⊢
  cases hba : r.BasicAuth with
  | none => simp [hba] at h
  | some up =>
    obtain ⟨authUsername, password⟩ := up
    simp only [hba] at h ⊢
    by_cases hne : authUsername ≠ username
    · simp [hne] at h
    · simp only [hne, if_false] at h ⊢
      cases hl : conf.Users.lookup username with
      | none => simp [hl] at h
      | some hash =>
        simp only [hl] at h ⊢
        cases hv : ext.verifyEncoded password hash with
        | none => simp [hv] at h
        | some ok =>
          simp only [hv] at h ⊢
          cases ok with
          | false => simp at h
          | true => simp

theorem GetFollowing_ok (fail : Bool) (db : DB) (username : String) (fu : Following)
    (h : GetFollowing fail db username = .ok fu) :
    ∃ row l, fail = false ∧ db.following.lookup username = some row ∧
      decodeStrings row.usernames = some l ∧
      fu = { UpdatedAt := row.updated_at,
             Usernames := some (l.foldl FollowingUsernames.add []) } := by
  unfold GetFollowing at h
  cases fail with
  | true => simp at h
  | false =>
    simp only [Bool.false_eq_true, if_false] at h
    cases hrow : db.following.lookup username with
    | none => simp [hrow] at h
    | some row =>
      simp only [hrow, FollowingUsernames.UnmarshalJSON] at h
      cases hl : decodeStrings row.usernames with
      | none => simp [hl] at h
      | some l =>
        simp only [hl, Except.ok.injEq] at h
        exact ⟨row, l, rfl, rfl, hl, h.symm⟩

/-! ## The qualified-username pattern -/

theorem takeWhile_dropWhile_stop (p : Char → Bool) (loc dom : List Char) (c : Char)
    (hloc : ∀ x ∈ loc, p x = true) (hc : p c = false) :
    (loc ++ c :: dom).takeWhile p = loc ∧ (loc ++ c :: dom).dropWhile p = c :: dom := by
  induction loc with
  | nil => simp [List.takeWhile, List.dropWhile, hc]
  | cons x xs ih =>
    have hx : p x = true := hloc x (List.mem_cons_self x xs)
    have := ih (fun y hy => hloc y (List.mem_cons_of_mem x hy))
    simp [List.takeWhile, List.dropWhile, hx, this.1, this.2]

/-- The strings matched by `followingUsernameRE` are those of the language of
`^@[a-z0-9_\.]{1,40}@[\w\.]+$`: an `@`, one to forty characters of the first
class, an `@`, and one or more characters of the second class. -/
theorem followingUsernameRE_iff (s : String) :
    followingUsernameRE s = true ↔
      ∃ loc dom : List Char, s.data = '@' :: (loc ++ '@' :: dom) ∧
        1 ≤ loc.length ∧ loc.length ≤ 40 ∧ (∀ c ∈ loc, isLocalChar c = true) ∧
        dom ≠ [] ∧ (∀ c ∈ dom, isDomainChar c = true) := by
  unfold followingUsernameRE
  constructor
  · intro h
    split at h
    · rename_i rest hs
      simp only [Bool.and_eq_true, decide_eq_true_eq] at h
      obtain ⟨⟨h1, h40⟩, h3⟩ := h
      split at h3
      · rename_i dom hd
        simp only [Bool.and_eq_true, Bool.not_eq_true', List.isEmpty_eq_false,
          List.all_eq_true] at h3
        refine ⟨rest.takeWhile isLocalChar, dom, ?_, h1, h40, ?_, h3.1, h3.2⟩
        · rw [hs, ← hd, List.takeWhile_append_dropWhile]
        · intro c hc
          exact List.mem_takeWhile_imp hc
      · simp at h3
    · simp at h
  · rintro ⟨loc, dom, hs, h1, h40, hloc, hdom, hall⟩
    have hat : isLocalChar '@' = false := by decide
    obtain ⟨ht, hd⟩ := takeWhile_dropWhile_stop isLocalChar loc dom '@' hloc hat
    simp only [hs, ht, hd]
    simp only [Bool.and_eq_true, decide_eq_true_eq, Bool.not_eq_true', List.all_eq_true]
    refine ⟨⟨h1, h40⟩, ?_, hall⟩
    cases dom with
    | nil => exact absurd rfl hdom
    | cons d ds => rfl

/-! ## Following-set -/

/-- C1: an accepted Following-set request (path of a provisioned account,
authenticated, body within the limit that decodes to `add` and `remove` lists
not both empty, all entries matching the pattern) on a store whose following
set loads as `S` succeeds with status 200, and the set that is then stored for
the account, read back by `GetFollowing`, has exactly the members of
`(S ∪ add) \ remove`, stamped with the current time; so a username listed in
both `add` and `remove` is absent from it. -/
theorem setFollowing_persists_union_diff (ext : Ext) (conf : TomlConfig) (db : DB) (r : Request)
    (now T : Time) (username hash : String) (doc : Json) (data : setFollowingJSON)
    (S : FollowingUsernames)
    (hpath : pathUsername r.Path "/following".utf8ByteSize = some username)
    (huser : conf.Users.lookup username = some hash)
    (hauth : (checkAuth ext conf username r).1 = true)
    (hsize : r.Body.length ≤ 1 * 1024 * 1024)
    (hjson : r.BodyJson = some doc)
    (hdec : decodeSetFollowing doc = some data)
    (hnonempty : ¬ (data.Add.length = 0 ∧ data.Remove.length = 0))
    (hadd : ∀ u ∈ data.Add, followingUsernameRE u = true)
    (hremove : ∀ u ∈ data.Remove, followingUsernameRE u = true)
    (hload : GetFollowing false db username = .ok { UpdatedAt := T, Usernames := some S }) :
    ∃ (db2 : DB) (P : FollowingUsernames),
      setFollowing ext conf false false db r now = (some {}, db2) ∧
      GetFollowing false db2 username = .ok { UpdatedAt := now, Usernames := some P } ∧
      (∀ u, u ∈ P ↔ (u ∈ S ∨ u ∈ data.Add) ∧ u ∉ data.Remove) ∧
      (∀ u, u ∈ data.Add → u ∈ data.Remove → u ∉ P) := by
  obtain ⟨row, l, -, hrow, hl, hfu⟩ := GetFollowing_ok false db username _ hload
  have hS : S = l.foldl FollowingUsernames.add [] := by
    simp only [Following.mk.injEq, Option.some.injEq] at hfu
    exact hfu.2
  have hSnd : S.Nodup := by
    rw [hS]; exact nodup_foldl_add l [] List.nodup_nil
  let P : FollowingUsernames :=
    data.Remove.foldl FollowingUsernames.delete (data.Add.foldl FollowingUsernames.add S)
  have hPnd : P.Nodup := nodup_foldl_delete _ _ (nodup_foldl_add _ _ hSnd)
  have hmem : ∀ u, u ∈ P ↔ (u ∈ S ∨ u ∈ data.Add) ∧ u ∉ data.Remove := by
    intro u
    simp only [P, mem_foldl_delete, mem_foldl_add]
  refine ⟨{ db with following := db.following.map (fun kr =>
      if kr.1 = username then
        (kr.1, { updated_at := now, usernames := FollowingUsernames.MarshalJSON P })
      else kr) }, P, ?_, ?_, hmem, ?_⟩
  · have hsz : ¬ (r.Body.length > 1 * 1024 * 1024) := by omega
    simp only [setFollowing, hpath, huser, checkAuth_true _ _ _ _ hauth, hjson, hdec, hload,
      hsz, hnonempty,
      addLoop_valid _ _ hadd, removeLoop_valid _ _ hremove, SetFollowing,
      Option.isNone_some, Bool.false_eq_true, if_false, Bool.not_true, P]
  · unfold GetFollowing
    simp only [Bool.false_eq_true, if_false]
    rw [lookup_map_key db.following username username
      (fun _ => { updated_at := now, usernames := FollowingUsernames.MarshalJSON P }), hrow]
    simp only [Option.map_some', if_true, unmarshal_marshal P hPnd]
  · intro u _ hr hP
    exact ((hmem u).1 hP).2 hr

theorem setFollowing_persists_union_diff_witness :
    ∃ (db2 : DB) (P : FollowingUsernames),
      setFollowing sampleExt sampleConf false false sampleDB sampleFollowingRequest
          (63839664060 * Second) = (some {}, db2) ∧
      GetFollowing false db2 "alice"
        = .ok { UpdatedAt := 63839664060 * Second, Usernames := some P } ∧
      (∀ u, u ∈ P ↔ (u ∈ ["@bob@example.com"] ∨
          u ∈ ["@carol@example.org", "@dave@example.org"]) ∧ u ∉ ["@dave@example.org"]) ∧
      (∀ u, u ∈ ["@carol@example.org", "@dave@example.org"] → u ∈ ["@dave@example.org"] →
          u ∉ P) :=
  setFollowing_persists_union_diff sampleExt sampleConf sampleDB sampleFollowingRequest
    (63839664060 * Second) (63839664000 * Second) "alice" "hash-of-secret"
    (.obj [("add", .arr [.str "@carol@example.org", .str "@dave@example.org"]),
           ("remove", .arr [.str "@dave@example.org"])])
    { Add := ["@carol@example.org", "@dave@example.org"], Remove := ["@dave@example.org"] }
    ["@bob@example.com"]
    (by decide) (by decide) (by rfl) (by decide) (by rfl) (by rfl) (by decide)
    (by decide) (by decide) (by rfl)

/-! ## Status rows -/

theorem setUserColsArgs_cols (username : String) (d : Status) (now : Time) :
    (setUserColsArgs username d now).1 =
        (if d.Avatar.isSome then ["avatar"] else []) ++
        (if (d.Avatar.bind AvatarMap.Num).isSome then ["avatar_num"] else []) ++
        (if d.Name.isSome then ["name"] else []) ++
        (if d.StatusText.isSome then ["status"] else []) ++
        (if d.Emoji.isSome then ["emoji"] else []) ++
        (if d.Media.isSome then ["media"] else []) ++
        (if d.MediaType.isSome then ["media_type"] else []) ++
        (if d.URI.isSome then ["uri"] else []) ++ ["updated_at"] := by
  obtain ⟨av, nm, st, em, me, mt, uri, ua⟩ := d
  rcases av with _ | ⟨paths, _ | num⟩ <;> cases nm <;> cases st <;> cases em <;> cases me <;>
    cases mt <;> cases uri <;> rfl

theorem setUserColsArgs_args (username : String) (d : Status) (now : Time) :
    (setUserColsArgs username d now).2 =
        (d.Avatar.toList.map (fun av => SqlVal.text (av.path "original"))) ++
        ((d.Avatar.bind AvatarMap.Num).toList.map SqlVal.int) ++
        (d.Name.toList.map SqlVal.text) ++
        (d.StatusText.toList.map SqlVal.text) ++
        (d.Emoji.toList.map SqlVal.text) ++
        (d.Media.toList.map SqlVal.text) ++
        (d.MediaType.toList.map SqlVal.int) ++
        (d.URI.toList.map SqlVal.text) ++ [SqlVal.time now, SqlVal.text username] := by
  obtain ⟨av, nm, st, em, me, mt, uri, ua⟩ := d
  rcases av with _ | ⟨paths, _ | num⟩ <;> cases nm <;> cases st <;> cases em <;> cases me <;>
    cases mt <;> cases uri <;> rfl

theorem setUserColsArgs_where (username : String) (d : Status) (now : Time) :
    ((setUserColsArgs username d now).2).get? (setUserColsArgs username d now).1.length
      = some (SqlVal.text username) := by
  obtain ⟨av, nm, st, em, me, mt, uri, ua⟩ := d
  rcases av with _ | ⟨paths, _ | num⟩ <;> cases nm <;> cases st <;> cases em <;> cases me <;>
    cases mt <;> cases uri <;> rfl

theorem assignCols_append (row : StatusRow) (c1 c2 : List String) (a1 a2 : List SqlVal)
    (h : c1.length = a1.length) :
    assignCols row (c1 ++ c2) (a1 ++ a2) = assignCols (assignCols row c1 a1) c2 a2 := by
  simp [assignCols, List.zip_append h, List.foldl_append]

theorem assignCols_present {α : Type} (row : StatusRow) (c : String) (o : Option α)
    (f : α → SqlVal) :
    assignCols row (if o.isSome then [c] else []) (o.toList.map f)
      = o.elim row (fun v => assignCol row c (f v)) := by
  cases o <;> rfl

theorem present_length {α : Type} (c : String) (o : Option α) :
    (if o.isSome then [c] else []).length = o.toList.length := by
  cases o <;> rfl

theorem assignCols_setUser (username : String) (d : Status) (now : Time) (row : StatusRow) :
    assignCols row (setUserColsArgs username d now).1 (setUserColsArgs username d now).2 =
      { updated_at := now,
        avatar := (d.Avatar.map (fun av => av.path "original")).getD row.avatar,
        avatar_num := (d.Avatar.bind AvatarMap.Num).getD row.avatar_num,
        name := d.Name.getD row.name,
        status := d.StatusText.getD row.status,
        emoji := d.Emoji.getD row.emoji,
        media := d.Media.getD row.media,
        media_type := d.MediaType.getD row.media_type,
        uri := d.URI.getD row.uri } := by
  rw [setUserColsArgs_cols, setUserColsArgs_args]
  rw [assignCols_append _ _ _ _ _ (by simp only [List.length_append, List.length_map, present_length])]
  rw [assignCols_append _ _ _ _ _ (by simp only [List.length_append, List.length_map, present_length])]
  rw [assignCols_append _ _ _ _ _ (by simp only [List.length_append, List.length_map, present_length])]
  rw [assignCols_append _ _ _ _ _ (by simp only [List.length_append, List.length_map, present_length])]
  rw [assignCols_append _ _ _ _ _ (by simp only [List.length_append, List.length_map, present_length])]
  rw [assignCols_append _ _ _ _ _ (by simp only [List.length_append, List.length_map, present_length])]
  rw [assignCols_append _ _ _ _ _ (by simp only [List.length_append, List.length_map, present_length])]
  rw [assignCols_append _ _ _ _ _ (by simp only [List.length_append, List.length_map, present_length])]
  simp only [assignCols_present]
  have hlast : ∀ r : StatusRow,
      assignCols r ["updated_at"] [SqlVal.time now, SqlVal.text username]
        = { r with updated_at := now } := by
    intro r; simp [assignCols, assignCol]
  rw [hlast]
  obtain ⟨av, nm, st, em, me, mt, uri, ua⟩ := d
  have h1 : ∀ (r : StatusRow) (x : String), assignCol r "avatar" (.text x) = { r with avatar := x } := by
    intro r x; simp [assignCol]
  have h2 : ∀ (r : StatusRow) (x : Int), assignCol r "avatar_num" (.int x) = { r with avatar_num := x } := by
    intro r x; simp [assignCol]
  have h3 : ∀ (r : StatusRow) (x : String), assignCol r "name" (.text x) = { r with name := x } := by
    intro r x; simp [assignCol]
  have h4 : ∀ (r : StatusRow) (x : String), assignCol r "status" (.text x) = { r with status := x } := by
    intro r x; simp [assignCol]
  have h5 : ∀ (r : StatusRow) (x : String), assignCol r "emoji" (.text x) = { r with emoji := x } := by
    intro r x; simp [assignCol]
  have h6 : ∀ (r : StatusRow) (x : String), assignCol r "media" (.text x) = { r with media := x } := by
    intro r x; simp [assignCol]
  have h7 : ∀ (r : StatusRow) (x : Int), assignCol r "media_type" (.int x) = { r with media_type := x } := by
    intro r x; simp [assignCol]
  have h8 : ∀ (r : StatusRow) (x : String), assignCol r "uri" (.text x) = { r with uri := x } := by
    intro r x; simp [assignCol]
  simp only [h1, h2, h3, h4, h5, h6, h7, h8]
  rcases av with _ | ⟨paths, _ | num⟩ <;> cases nm <;> cases st <;> cases em <;> cases me <;>
    cases mt <;> cases uri <;> rfl

/-- C2: for every `Status`, the statement of `SetUser` names exactly the
columns whose fields are present, in the order avatar, avatar_num, name,
status, emoji, media, media_type, uri, followed by updated_at; each is bound
to the value of its field, updated_at to the current time, and the last
argument, the username, selects the row.  Executed, it gives each named column
of the rows of that username its bound value and leaves every other column, and
every other row, table and file, as it was. -/
theorem SetUser_assigns_present_fields (db : DB) (username : String) (d : Status) (now : Time) :
    (setUserColsArgs username d now).1 =
        (if d.Avatar.isSome then ["avatar"] else []) ++
        (if (d.Avatar.bind AvatarMap.Num).isSome then ["avatar_num"] else []) ++
        (if d.Name.isSome then ["name"] else []) ++
        (if d.StatusText.isSome then ["status"] else []) ++
        (if d.Emoji.isSome then ["emoji"] else []) ++
        (if d.Media.isSome then ["media"] else []) ++
        (if d.MediaType.isSome then ["media_type"] else []) ++
        (if d.URI.isSome then ["uri"] else []) ++ ["updated_at"] ∧
    (setUserColsArgs username d now).2 =
        (d.Avatar.toList.map (fun av => SqlVal.text (av.path "original"))) ++
        ((d.Avatar.bind AvatarMap.Num).toList.map SqlVal.int) ++
        (d.Name.toList.map SqlVal.text) ++
        (d.StatusText.toList.map SqlVal.text) ++
        (d.Emoji.toList.map SqlVal.text) ++
        (d.Media.toList.map SqlVal.text) ++
        (d.MediaType.toList.map SqlVal.int) ++
        (d.URI.toList.map SqlVal.text) ++ [SqlVal.time now, SqlVal.text username] ∧
    (∀ row : StatusRow,
      assignCols row (setUserColsArgs username d now).1 (setUserColsArgs username d now).2 =
        { updated_at := now,
          avatar := (d.Avatar.map (fun av => av.path "original")).getD row.avatar,
          avatar_num := (d.Avatar.bind AvatarMap.Num).getD row.avatar_num,
          name := d.Name.getD row.name,
          status := d.StatusText.getD row.status,
          emoji := d.Emoji.getD row.emoji,
          media := d.Media.getD row.media,
          media_type := d.MediaType.getD row.media_type,
          uri := d.URI.getD row.uri }) ∧
    (SetUser false db username d now).2 = none ∧
    (∀ v : String, (SetUser false db username d now).1.statuses.lookup v =
      (db.statuses.lookup v).map (fun row =>
        if v = username then
          assignCols row (setUserColsArgs username d now).1 (setUserColsArgs username d now).2
        else row)) ∧
    (SetUser false db username d now).1.following = db.following ∧
    (SetUser false db username d now).1.avatarFiles = db.avatarFiles ∧
    (SetUser false db username d now).1.avatarMutexes = db.avatarMutexes := by
  refine ⟨setUserColsArgs_cols username d now, setUserColsArgs_args username d now,
    assignCols_setUser username d now, rfl, ?_, rfl, rfl, rfl⟩
  intro v
  simp only [SetUser, Bool.false_eq_true, if_false, execUpdateStatuses,
    setUserColsArgs_where username d now]
  exact lookup_map_key db.statuses username v
    (fun row => assignCols row (setUserColsArgs username d now).1 (setUserColsArgs username d now).2)

/-! ## String validation -/

set_option maxRecDepth 100000 in
/-- C3: `validString` compares the byte offset of each code point with `max`,
not the number of code points.  A name of 21 two-byte letters (21 code points,
42 bytes, no control character) is rejected with the limit 40, and a name of 41
three-byte signs (41 code points, no offset equal to 40) is accepted with the
limit 40, while the documented rule accepts the first and rejects the second. -/
theorem validString_counts_byte_offsets :
    validString (String.mk (List.replicate 21 'é')) 40 = false ∧
    validStringSpec (String.mk (List.replicate 21 'é')) 40 = true ∧
    validString (String.mk (List.replicate 41 '€')) 40 = true ∧
    validStringSpec (String.mk (List.replicate 41 '€')) 40 = false := by
  decide

/-! ## Batch status query -/

/-- C4: when the stored `updated_at` of an account equals the time of
`If-Modified-Since`, the batch status query answers that account with code 200
and the status, not with 304: `statusQuery` tests `Before` only. -/
theorem statusQuery_equal_time_is_200 :
    statusQuery sampleConf (fun _ => false) sampleDB
        { Path := "/.well-known/fmrl/users", QueryUser := some ["alice"],
          IfModifiedSince := some (some (63839664000 * Second)) } =
      { Code := 200, LastModified := some (63839664000 * Second),
        ContentType := some "application/json",
        Body := .users [
          { Username := "alice",
            Code := 200,
            Data := some
              { Avatar := some
                  { Paths := some [("original", "/.well-known/fmrl/avatars/alice/original")],
                    Num := some 3 },
                Name := some "Alice", StatusText := some "reading", Emoji := some "",
                Media := some "", MediaType := some 0, URI := some "",
                UpdatedAt := 63839664000 * Second } }] } := by
  rfl

/-! ## Status-set -/

/-- C5: a Status-set body with a key that names no field of `Status` is not
rejected.  `setStatus` decodes with `json.Unmarshal`, which skips such a member:
the body with members `name` and `mood` is answered with 200 and the name and
`updated_at` are written, and a body with the single member `mood` is answered
with 200 as an empty update.  The decoder of `setFollowing`, with
`DisallowUnknownFields`, returns an error on the same members. -/
theorem setStatus_accepts_unknown_field :
    (setStatus sampleExt sampleConf false sampleDB
        (sampleStatusRequest "\x7b\"name\":\"Alice B\",\"mood\":1\x7d"
          (.obj [("name", .str "Alice B"), ("mood", .num 1)]))
        (63839664060 * Second)).1.map Response.Code = some 200 ∧
    ((setStatus sampleExt sampleConf false sampleDB
        (sampleStatusRequest "\x7b\"name\":\"Alice B\",\"mood\":1\x7d"
          (.obj [("name", .str "Alice B"), ("mood", .num 1)]))
        (63839664060 * Second)).2.statuses.lookup "alice").map
          (fun row => (row.name, row.updated_at)) = some ("Alice B", 63839664060 * Second) ∧
    (setStatus sampleExt sampleConf false sampleDB
        (sampleStatusRequest "\x7b\"mood\":1\x7d" (.obj [("mood", .num 1)]))
        (63839664060 * Second)).1.map Response.Code = some 200 ∧
    (decodeStatusMembers true [("name", .str "Alice B"), ("mood", .num 1)] Status.zero).isNone
      = true := by
  decide

/-! ## Avatars -/

/-- C6: `SetAvatar` opens the avatar file without truncating it, so an image
shorter than the previous file leaves the tail of the previous file in place:
writing the one-byte image `[9]` over the stored bytes `[1, 2, 3]` returns no
error and leaves `[9, 2, 3]`, not `[9]`. -/
theorem SetAvatar_keeps_tail_of_longer_file :
    (SetAvatar {} sampleDB "alice" [9] (63839664060 * Second)).2 = none ∧
    (SetAvatar {} sampleDB "alice" [9] (63839664060 * Second)).1.avatarFiles.lookup "alice"
      = some [9, 2, 3] := by
  decide

/-! ## Status-set: guarded cases -/

/-- C7: an authenticated Status-set request on a provisioned account whose
body decodes to a status with the avatar field set is answered with 400,
whatever the other fields hold and whether or not the storage would fail, and
the store is left exactly as it was: `SetUser` is not reached, so the stored
avatar path, `avatar_num` and `updated_at` keep their values. -/
theorem setStatus_rejects_avatar (ext : Ext) (conf : TomlConfig) (execFail : Bool) (db : DB)
    (r : Request) (now : Time) (username hash : String) (st : Status)
    (hpath : pathUsername r.Path 0 = some username)
    (huser : conf.Users.lookup username = some hash)
    (hauth : (checkAuth ext conf username r).1 = true)
    (hsize : r.Body.length ≤ 2048)
    (hdec : unmarshalStatus r.BodyJson = some st)
    (havatar : st.Avatar.isSome = true) :
    setStatus ext conf execFail db r now =
      (some { Code := 400,
              Body := .text "Avatar field should not be set, client not coded correctly" },
        db) := by
  have hsz : ¬ (r.Body.length > 2048) := by omega
  simp only [setStatus, hpath, huser, checkAuth_true _ _ _ _ hauth, hsz, hdec, havatar,
    Option.isNone_some, Bool.false_eq_true, if_false, Bool.not_true, if_true]

theorem setStatus_rejects_avatar_witness :
    setStatus sampleExt sampleConf false sampleDB
        (sampleStatusRequest "\x7b\"avatar\":\x7b\"original\":\"/x\"\x7d,\"name\":\"Alice B\"\x7d"
          (.obj [("avatar", .obj [("original", .str "/x")]), ("name", .str "Alice B")]))
        (63839664060 * Second) =
      (some { Code := 400,
              Body := .text "Avatar field should not be set, client not coded correctly" },
        sampleDB) :=
  setStatus_rejects_avatar sampleExt sampleConf false sampleDB
    (sampleStatusRequest "\x7b\"avatar\":\x7b\"original\":\"/x\"\x7d,\"name\":\"Alice B\"\x7d"
      (.obj [("avatar", .obj [("original", .str "/x")]), ("name", .str "Alice B")]))
    (63839664060 * Second) "alice" "hash-of-secret"
    { Status.zero with Avatar := some { Paths := some [("original", "/x")], Num := none },
                       Name := some "Alice B" }
    (by decide) (by decide) (by decide) (by decide) (by rfl) (by rfl)

/-- C8: an authenticated Status-set request on a provisioned account whose
body decodes to a status with every field absent is answered with the default
status 200 and an empty body, whether or not the storage would fail, and the
store is left exactly as it was: `SetUser` is not reached, so `updated_at` and
every stored field keep their values. -/
theorem setStatus_empty_is_noop (ext : Ext) (conf : TomlConfig) (execFail : Bool) (db : DB)
    (r : Request) (now : Time) (username hash : String) (st : Status)
    (hpath : pathUsername r.Path 0 = some username)
    (huser : conf.Users.lookup username = some hash)
    (hauth : (checkAuth ext conf username r).1 = true)
    (hsize : r.Body.length ≤ 2048)
    (hdec : unmarshalStatus r.BodyJson = some st)
    (hempty : st.IsEmpty = true) :
    setStatus ext conf execFail db r now = (some { Code := 200, Body := .text "" }, db) := by
  have hsz : ¬ (r.Body.length > 2048) := by omega
  have hav : st.Avatar.isSome = false := by
    unfold Status.IsEmpty at hempty
    cases hA : st.Avatar with
    | none => rfl
    | some av => simp [hA] at hempty
  simp only [setStatus, hpath, huser, checkAuth_true _ _ _ _ hauth, hsz, hdec, hav, hempty,
    Option.isNone_some, Bool.false_eq_true, if_false, Bool.not_true, if_true]

theorem setStatus_empty_is_noop_witness :
    setStatus sampleExt sampleConf false sampleDB (sampleStatusRequest "\x7b\x7d" (.obj []))
        (63839664060 * Second) = (some { Code := 200, Body := .text "" }, sampleDB) :=
  setStatus_empty_is_noop sampleExt sampleConf false sampleDB
    (sampleStatusRequest "\x7b\x7d" (.obj []))
    (63839664060 * Second) "alice" "hash-of-secret" Status.zero
    (by decide) (by decide) (by decide) (by decide) (by rfl) (by rfl)

/-! ## Avatar number -/

theorem wrapInt64_of_range (n : Int) (hlo : -(2 ^ 63) ≤ n) (hhi : n < 2 ^ 63) :
    wrapInt64 n = n := by
  unfold wrapInt64
  omega

theorem SetUser_lookup (db : DB) (username : String) (d : Status) (now : Time) (v : String) :
    (SetUser false db username d now).1.statuses.lookup v =
      (db.statuses.lookup v).map (fun row =>
        if v = username then
          assignCols row (setUserColsArgs username d now).1 (setUserColsArgs username d now).2
        else row) := by
  simp only [SetUser, Bool.false_eq_true, if_false, execUpdateStatuses,
    setUserColsArgs_where username d now]
  exact lookup_map_key db.statuses username v
    (fun row => assignCols row (setUserColsArgs username d now).1 (setUserColsArgs username d now).2)

theorem SetUser_none (fail : Bool) (db db2 : DB) (username : String) (d : Status) (now : Time)
    (h : SetUser fail db username d now = (db2, none)) :
    fail = false ∧ db2 = (SetUser false db username d now).1 := by
  cases fail with
  | true => simp [SetUser] at h
  | false => exact ⟨rfl, by rw [h]⟩

theorem SetAvatar_none (f : AvatarFaults) (db db2 : DB) (username : String) (img : List Nat)
    (now : Time) (h : SetAvatar f db username img now = (db2, none)) :
    ∃ row, db.statuses.lookup username = some row ∧
      db2.statuses.lookup username =
        some { row with updated_at := now,
                        avatar := "/.well-known/fmrl/avatars/" ++ username ++ "/original",
                        avatar_num := wrapInt64 (row.avatar_num + 1) } := by
  unfold SetAvatar at h
  split at h
  · simp at h
  split at h
  · simp at h
  split at h
  · simp at h
  split at h
  · simp at h
  split at h
  · simp at h
  simp only [] at h
  cases hrow : db.statuses.lookup username with
  | none => simp [hrow] at h
  | some row =>
    simp only [hrow] at h
    obtain ⟨-, hdb⟩ := SetUser_none _ _ _ _ _ _ h
    refine ⟨row, rfl, ?_⟩
    rw [hdb, SetUser_lookup]
    simp only [assignCols_setUser]
    simp [hrow, Status.zero, AvatarMap.path, mapSet, mapGet]

theorem RemoveAvatar_none (f : AvatarFaults) (db db2 : DB) (username : String)
    (now : Time) (h : RemoveAvatar f db username now = (db2, none)) :
    db2.statuses.lookup username =
      (db.statuses.lookup username).map (fun row => { row with updated_at := now, avatar := "" }) := by
  unfold RemoveAvatar at h
  split at h
  · simp at h
  split at h
  · simp at h
  simp only [] at h
  obtain ⟨-, hdb⟩ := SetUser_none _ _ _ _ _ _ h
  rw [hdb, SetUser_lookup]
  simp only [assignCols_setUser]
  simp [Status.zero, AvatarMap.path, mapGet]

theorem countSets_append (l1 l2 : List AvatarCall) :
    countSets (l1 ++ l2) = countSets l1 + countSets l2 := by
  induction l1 with
  | nil => simp [countSets]
  | cons c cs ih =>
    cases c with
    | set f img now =>
      rw [List.cons_append]
      simp only [countSets]
      rw [ih]
      omega
    | remove f now =>
      rw [List.cons_append]
      simp only [countSets]
      rw [ih]

theorem runAvatarCalls_cons (db db2 : DB) (username : String) (c : AvatarCall)
    (cs : List AvatarCall) (h : runAvatarCalls db username (c :: cs) = some db2) :
    ∃ db1, c.run db username = (db1, none) ∧ runAvatarCalls db1 username cs = some db2 := by
  unfold runAvatarCalls at h
  split at h
  · rename_i db1 hc
    exact ⟨db1, hc, h⟩
  · simp at h

theorem runAvatarCalls_append (db db2 : DB) (username : String) (l1 l2 : List AvatarCall)
    (h : runAvatarCalls db username (l1 ++ l2) = some db2) :
    ∃ db1, runAvatarCalls db username l1 = some db1 ∧
      runAvatarCalls db1 username l2 = some db2 := by
  induction l1 generalizing db with
  | nil => exact ⟨db, rfl, h⟩
  | cons c cs ih =>
    obtain ⟨dbc, hc, hrest⟩ := runAvatarCalls_cons db db2 username c (cs ++ l2) h
    obtain ⟨db1, h1, h2⟩ := ih dbc hrest
    refine ⟨db1, ?_, h2⟩
    simp only [runAvatarCalls, hc]
    exact h1

theorem avatarCall_step (db db1 : DB) (username : String) (c : AvatarCall) (row : StatusRow)
    (hrow : db.statuses.lookup username = some row)
    (hlo : -(2 ^ 63) ≤ row.avatar_num) (hhi : row.avatar_num + countSets [c] < 2 ^ 63)
    (hrun : c.run db username = (db1, none)) :
    ∃ row1, db1.statuses.lookup username = some row1 ∧
      row1.avatar_num = row.avatar_num + countSets [c] ∧
      c.raisesOrKeeps row row1 := by
  cases c with
  | set f img now =>
    obtain ⟨row0, h0, h1⟩ := SetAvatar_none f db db1 username img now hrun
    rw [hrow] at h0
    cases h0
    simp only [countSets] at hhi
    have hw : wrapInt64 (row.avatar_num + 1) = row.avatar_num + 1 :=
      wrapInt64_of_range _ (by omega) (by omega)
    refine ⟨_, h1, ?_, ?_⟩
    · simp [hw, countSets]
    · simp [hw, AvatarCall.raisesOrKeeps]
  | remove f now =>
    have h1 := RemoveAvatar_none f db db1 username now hrun
    rw [hrow] at h1
    refine ⟨_, h1, ?_, ?_⟩
    · simp [countSets]
    · simp [AvatarCall.raisesOrKeeps]

theorem runAvatarCalls_count (username : String) (calls : List AvatarCall) (db db2 : DB)
    (row : StatusRow)
    (hrow : db.statuses.lookup username = some row)
    (hlo : -(2 ^ 63) ≤ row.avatar_num) (hhi : row.avatar_num + countSets calls < 2 ^ 63)
    (hrun : runAvatarCalls db username calls = some db2) :
    ∃ row2, db2.statuses.lookup username = some row2 ∧
      row2.avatar_num = row.avatar_num + countSets calls := by
  induction calls generalizing db row with
  | nil =>
    simp only [runAvatarCalls, Option.some.injEq] at hrun
    subst hrun
    exact ⟨row, hrow, by simp [countSets]⟩
  | cons c cs ih =>
    obtain ⟨db1, hc, hrest⟩ := runAvatarCalls_cons db db2 username c cs hrun
    have hcount : countSets (c :: cs) = countSets [c] + countSets cs :=
      countSets_append [c] cs
    obtain ⟨row1, hrow1, hnum1, -⟩ :=
      avatarCall_step db db1 username c row hrow hlo (by omega) hc
    obtain ⟨row2, hrow2, hnum2⟩ := ih db1 row1 hrow1 (by omega) (by omega) hrest
    exact ⟨row2, hrow2, by omega⟩

/-- C9: take an account with a row in `statuses` and any sequence of
`SetAvatar` and `RemoveAvatar` calls on it that all return no error, the stored
`avatar_num` staying within the 64 bit range of Go `int` (it starts in range
and the uploads do not carry it to 2^63).  Then every `SetAvatar` of the
sequence raises the stored `avatar_num` by exactly 1, every `RemoveAvatar`
leaves it as it was and stores the empty avatar path, and at the end
`avatar_num` is the starting value plus the number of uploads: it has not
decreased, and starting from 0 it is the number of uploads. -/
theorem avatar_num_counts_uploads (username : String) (calls : List AvatarCall) (db db2 : DB)
    (row : StatusRow)
    (hrow : db.statuses.lookup username = some row)
    (hlo : -(2 ^ 63) ≤ row.avatar_num) (hhi : row.avatar_num + countSets calls < 2 ^ 63)
    (hrun : runAvatarCalls db username calls = some db2) :
    (∃ row2, db2.statuses.lookup username = some row2 ∧
      row2.avatar_num = row.avatar_num + countSets calls ∧
      row.avatar_num ≤ row2.avatar_num ∧
      (row.avatar_num = 0 → row2.avatar_num = countSets calls)) ∧
    (∀ (before : List AvatarCall) (c : AvatarCall) (after : List AvatarCall),
      calls = before ++ c :: after →
      ∃ (dbA dbB : DB) (rowA rowB : StatusRow),
        runAvatarCalls db username before = some dbA ∧
        c.run dbA username = (dbB, none) ∧
        dbA.statuses.lookup username = some rowA ∧
        dbB.statuses.lookup username = some rowB ∧
        c.raisesOrKeeps rowA rowB) := by
  constructor
  · obtain ⟨row2, h2, hn⟩ := runAvatarCalls_count username calls db db2 row hrow hlo hhi hrun
    refine ⟨row2, h2, hn, by omega, ?_⟩
    intro h0
    omega
  · intro before c after hsplit
    subst hsplit
    obtain ⟨dbA, hA, hrest⟩ := runAvatarCalls_append db db2 username before (c :: after) hrun
    obtain ⟨dbB, hc, -⟩ := runAvatarCalls_cons dbA db2 username c after hrest
    have hcount : countSets (before ++ c :: after)
        = countSets before + (countSets [c] + countSets after) := by
      rw [countSets_append, ← countSets_append [c] after]
      rfl
    obtain ⟨rowA, hrowA, hnumA⟩ :=
      runAvatarCalls_count username before db dbA row hrow hlo (by omega) hA
    obtain ⟨rowB, hrowB, -, hstep⟩ :=
      avatarCall_step dbA dbB username c rowA hrowA (by omega) (by omega) hc
    exact ⟨dbA, dbB, rowA, rowB, hA, hc, hrowA, hrowB, hstep⟩

theorem avatar_num_counts_uploads_witness :
    (∃ row2, ((runAvatarCalls sampleDB "alice" sampleCalls).getD sampleDB).statuses.lookup "alice"
        = some row2 ∧
      row2.avatar_num = sampleRow.avatar_num + countSets sampleCalls ∧
      sampleRow.avatar_num ≤ row2.avatar_num ∧
      (sampleRow.avatar_num = 0 → row2.avatar_num = countSets sampleCalls)) ∧
    (∀ (before : List AvatarCall) (c : AvatarCall) (after : List AvatarCall),
      sampleCalls = before ++ c :: after →
      ∃ (dbA dbB : DB) (rowA rowB : StatusRow),
        runAvatarCalls sampleDB "alice" before = some dbA ∧
        c.run dbA "alice" = (dbB, none) ∧
        dbA.statuses.lookup "alice" = some rowA ∧
        dbB.statuses.lookup "alice" = some rowB ∧
        c.raisesOrKeeps rowA rowB) :=
  avatar_num_counts_uploads "alice" sampleCalls sampleDB
    ((runAvatarCalls sampleDB "alice" sampleCalls).getD sampleDB) sampleRow
    (by rfl) (by decide) (by decide) (by rfl)

/-! ## Following-set: invalid entries -/

theorem addLoop_ok_valid (l : List String) (fu m : Option FollowingUsernames)
    (h : addLoop l fu = .ok m) : ∀ u ∈ l, followingUsernameRE u = true := by
  induction l generalizing fu with
  | nil => simp
  | cons v vs ih =>
    unfold addLoop at h
    cases hv : followingUsernameRE v with
    | false => simp [hv] at h
    | true =>
      simp only [hv, Bool.not_true, Bool.false_eq_true, if_false] at h
      cases fu with
      | none => simp at h
      | some m0 =>
        simp only [] at h
        intro u hu
        rcases List.mem_cons.1 hu with rfl | hu
        · exact hv
        · exact ih _ h u hu

theorem removeLoop_ok_valid (l : List String) (fu m : Option FollowingUsernames)
    (h : removeLoop l fu = .ok m) : ∀ u ∈ l, followingUsernameRE u = true := by
  induction l generalizing fu with
  | nil => simp
  | cons v vs ih =>
    unfold removeLoop at h
    cases hv : followingUsernameRE v with
    | false => simp [hv] at h
    | true =>
      simp only [hv, Bool.not_true, Bool.false_eq_true, if_false] at h
      intro u hu
      rcases List.mem_cons.1 hu with rfl | hu
      · exact hv
      · exact ih _ h u hu

theorem addLoop_some (l : List String) (m : FollowingUsernames) :
    (∃ m2, addLoop l (some m) = .ok (some m2)) ∨
    (∃ u, u ∈ l ∧ followingUsernameRE u = false ∧ addLoop l (some m) = .error (.invalid u)) := by
  induction l generalizing m with
  | nil => exact Or.inl ⟨m, rfl⟩
  | cons v vs ih =>
    cases hv : followingUsernameRE v with
    | false =>
      refine Or.inr ⟨v, List.mem_cons_self v vs, hv, ?_⟩
      simp [addLoop, hv]
    | true =>
      rcases ih (m.add v) with ⟨m2, h2⟩ | ⟨u, hu, hine, h2⟩
      · refine Or.inl ⟨m2, ?_⟩
        simp only [addLoop, hv, Bool.not_true, Bool.false_eq_true, if_false]
        exact h2
      · refine Or.inr ⟨u, List.mem_cons_of_mem v hu, hine, ?_⟩
        simp only [addLoop, hv, Bool.not_true, Bool.false_eq_true, if_false]
        exact h2

theorem removeLoop_some (l : List String) (m : FollowingUsernames) :
    (∃ m2, removeLoop l (some m) = .ok (some m2)) ∨
    (∃ u, u ∈ l ∧ followingUsernameRE u = false ∧
      removeLoop l (some m) = .error (.invalid u)) := by
  induction l generalizing m with
  | nil => exact Or.inl ⟨m, rfl⟩
  | cons v vs ih =>
    cases hv : followingUsernameRE v with
    | false =>
      refine Or.inr ⟨v, List.mem_cons_self v vs, hv, ?_⟩
      simp [removeLoop, hv]
    | true =>
      rcases ih (m.delete v) with ⟨m2, h2⟩ | ⟨u, hu, hine, h2⟩
      · refine Or.inl ⟨m2, ?_⟩
        simp only [removeLoop, hv, Bool.not_true, Bool.false_eq_true, if_false,
          Option.map_some']
        exact h2
      · refine Or.inr ⟨u, List.mem_cons_of_mem v hu, hine, ?_⟩
        simp only [removeLoop, hv, Bool.not_true, Bool.false_eq_true, if_false,
          Option.map_some']
        exact h2

theorem loops_ok_all_valid (add remove : List String) (fu m1 m2 : Option FollowingUsernames)
    (hinvalid : ∃ u, (u ∈ add ∨ u ∈ remove) ∧ followingUsernameRE u = false)
    (hadd : addLoop add fu = .ok m1) (hrem : removeLoop remove m1 = .ok m2) : False := by
  obtain ⟨u, hu, hbad⟩ := hinvalid
  rcases hu with hu | hu
  · rw [addLoop_ok_valid _ _ _ hadd u hu] at hbad
    exact Bool.noConfusion hbad
  · rw [removeLoop_ok_valid _ _ _ hrem u hu] at hbad
    exact Bool.noConfusion hbad

theorem setFollowing_store_of_invalid (ext : Ext) (conf : TomlConfig) (getFail setFail : Bool)
    (db : DB) (r : Request) (now : Time) (doc : Json) (data : setFollowingJSON)
    (hjson : r.BodyJson = some doc)
    (hdec : decodeSetFollowing doc = some data)
    (hinvalid : ∃ u, (u ∈ data.Add ∨ u ∈ data.Remove) ∧ followingUsernameRE u = false) :
    (setFollowing ext conf getFail setFail db r now).2 = db := by
  unfold setFollowing
  simp only [hjson, hdec]
  repeat' split
  all_goals first
    | rfl
    | exact (loops_ok_all_valid _ _ _ _ _ hinvalid (by assumption) (by assumption)).elim

theorem checkAuth_false (ext : Ext) (conf : TomlConfig) (username hash : String) (r : Request)
    (huser : conf.Users.lookup username = some hash)
    (h : (checkAuth ext conf username r).1 = false) :
    ∃ resp, checkAuth ext conf username r = (false, some resp) ∧
      (resp.Code = 401 ∨ resp.Code = 400 ∨ resp.Code = 500) := by
  unfold checkAuth at h ⊢
  cases hba : r.BasicAuth with
  | none => exact ⟨_, rfl, Or.inl rfl⟩
  | some up =>
    obtain ⟨authUsername, password⟩ := up
    simp only [hba] at h ⊢
    by_cases hne : authUsername ≠ username
    · rw [if_pos hne]
      exact ⟨_, rfl, Or.inr (Or.inl rfl)⟩
    · rw [if_neg hne] at h ⊢
      simp only [huser] at h ⊢
      cases hv : ext.verifyEncoded password hash with
      | none => exact ⟨_, rfl, Or.inr (Or.inr rfl)⟩
      | some ok =>
        simp only [hv] at h ⊢
        cases ok with
        | false => exact ⟨_, rfl, Or.inl rfl⟩
        | true => simp at h

theorem setFollowing_invalid_400 (ext : Ext) (conf : TomlConfig) (getFail setFail : Bool)
    (db : DB) (r : Request) (now : Time) (doc : Json) (data : setFollowingJSON)
    (hjson : r.BodyJson = some doc)
    (hdec : decodeSetFollowing doc = some data)
    (hinvalid : ∃ u, (u ∈ data.Add ∨ u ∈ data.Remove) ∧ followingUsernameRE u = false)
    (username hash : String) (fu : Following)
    (hpath : pathUsername r.Path "/following".utf8ByteSize = some username)
    (huser : conf.Users.lookup username = some hash)
    (hauth : (checkAuth ext conf username r).1 = true)
    (hsize : r.Body.length ≤ 1 * 1024 * 1024)
    (hload : GetFollowing getFail db username = .ok fu) :
    ∃ u, (u ∈ data.Add ∨ u ∈ data.Remove) ∧ followingUsernameRE u = false ∧
      (setFollowing ext conf getFail setFail db r now).1 =
        some { Code := 400, Body := .text ("Invalid global username: " ++ u) } := by
  have hsz : ¬ (r.Body.length > 1 * 1024 * 1024) := by omega
  have hne : ¬ (data.Add.length = 0 ∧ data.Remove.length = 0) := by
    rintro ⟨ha, hr⟩
    obtain ⟨u, hu, -⟩ := hinvalid
    rw [List.length_eq_zero] at ha hr
    rw [ha, hr] at hu
    simp at hu
  obtain ⟨row, l, -, -, -, hfu⟩ := GetFollowing_ok getFail db username fu hload
  have hm : fu.Usernames = some (l.foldl FollowingUsernames.add []) := by rw [hfu]
  rcases addLoop_some data.Add (l.foldl FollowingUsernames.add []) with
    ⟨m1, h1⟩ | ⟨u, hu, hbad, h1⟩
  · rcases removeLoop_some data.Remove m1 with ⟨m2, h2⟩ | ⟨u, hu, hbad, h2⟩
    · exact (loops_ok_all_valid _ _ _ _ _ hinvalid h1 h2).elim
    · refine ⟨u, Or.inr hu, hbad, ?_⟩
      simp only [setFollowing, hpath, huser, checkAuth_true _ _ _ _ hauth, hjson, hdec, hload,
        hsz, hne, hm, h1, h2, loopStopResponse, Option.isNone_some, Bool.false_eq_true,
        if_false, Bool.not_true]
  · refine ⟨u, Or.inl hu, hbad, ?_⟩
    simp only [setFollowing, hpath, huser, checkAuth_true _ _ _ _ hauth, hjson, hdec, hload,
      hsz, hne, hm, h1, loopStopResponse, Option.isNone_some, Bool.false_eq_true,
      if_false, Bool.not_true]

/-- C10 as amended: when the body of a Following-set request decodes to lists
`add` and `remove` in which some entry does not match the qualified-username
pattern, then whatever the outcome of the other checks and of the storage, the
store is left exactly as it was (`SetFollowing` is not reached, so the
following set and its `updated_at` keep their values, also when valid entries
come before the invalid one); and when moreover the path names a provisioned
account, the request is authenticated, the body is within the size limit and
the stored following set loads, the answer is 400 and names an entry that does
not match.  Otherwise the answer is that of the first earlier check that
stops the request: no response when the username cannot be sliced out of the
path, 404 when the account is not provisioned, the response of the auth guard
(401, 400 or 500) when it refuses, 413 when the body is over the limit, and
500 when the stored following set does not load. -/
theorem setFollowing_invalid_entry (ext : Ext) (conf : TomlConfig) (getFail setFail : Bool)
    (db : DB) (r : Request) (now : Time) (doc : Json) (data : setFollowingJSON)
    (hjson : r.BodyJson = some doc)
    (hdec : decodeSetFollowing doc = some data)
    (hinvalid : ∃ u, (u ∈ data.Add ∨ u ∈ data.Remove) ∧ followingUsernameRE u = false) :
    (setFollowing ext conf getFail setFail db r now).2 = db ∧
    (∀ (username hash : String) (fu : Following),
      pathUsername r.Path "/following".utf8ByteSize = some username →
      conf.Users.lookup username = some hash →
      (checkAuth ext conf username r).1 = true →
      r.Body.length ≤ 1 * 1024 * 1024 →
      GetFollowing getFail db username = .ok fu →
      ∃ u, (u ∈ data.Add ∨ u ∈ data.Remove) ∧ followingUsernameRE u = false ∧
        (setFollowing ext conf getFail setFail db r now).1 =
          some { Code := 400, Body := .text ("Invalid global username: " ++ u) }) ∧
    (pathUsername r.Path "/following".utf8ByteSize = none →
      (setFollowing ext conf getFail setFail db r now).1 = none) ∧
    (∀ username : String,
      pathUsername r.Path "/following".utf8ByteSize = some username →
      conf.Users.lookup username = none →
      (setFollowing ext conf getFail setFail db r now).1 = some (writeStatusCodePage 404)) ∧
    (∀ username hash : String,
      pathUsername r.Path "/following".utf8ByteSize = some username →
      conf.Users.lookup username = some hash →
      (checkAuth ext conf username r).1 = false →
      ∃ resp, (checkAuth ext conf username r).2 = some resp ∧
        (setFollowing ext conf getFail setFail db r now).1 = some resp ∧
        (resp.Code = 401 ∨ resp.Code = 400 ∨ resp.Code = 500)) ∧
    (∀ username hash : String,
      pathUsername r.Path "/following".utf8ByteSize = some username →
      conf.Users.lookup username = some hash →
      (checkAuth ext conf username r).1 = true →
      r.Body.length > 1 * 1024 * 1024 →
      (setFollowing ext conf getFail setFail db r now).1 = some (writeStatusCodePage 413)) ∧
    (∀ (username hash : String) (e : DbErr),
      pathUsername r.Path "/following".utf8ByteSize = some username →
      conf.Users.lookup username = some hash →
      (checkAuth ext conf username r).1 = true →
      r.Body.length ≤ 1 * 1024 * 1024 →
      GetFollowing getFail db username = .error e →
      (setFollowing ext conf getFail setFail db r now).1 =
        some { Code := 500, Body := .text "Error retrieving following list, not your fault.\nContact your server administrator or try again later." }) := by
  have hne : ¬ (data.Add.length = 0 ∧ data.Remove.length = 0) := by
    rintro ⟨ha, hr⟩
    obtain ⟨u, hu, -⟩ := hinvalid
    rw [List.length_eq_zero] at ha hr
    rw [ha, hr] at hu
    simp at hu
  refine ⟨setFollowing_store_of_invalid ext conf getFail setFail db r now doc data hjson hdec
    hinvalid, ?_, ?_, ?_, ?_, ?_, ?_⟩
  · intro username hash fu hpath huser hauth hsize hload
    exact setFollowing_invalid_400 ext conf getFail setFail db r now doc data hjson hdec
      hinvalid username hash fu hpath huser hauth hsize hload
  · intro hpath
    simp only [setFollowing, hpath]
  · intro username hpath huser
    simp only [setFollowing, hpath, huser, Option.isNone_none, if_true]
  · intro username hash hpath huser hauth
    obtain ⟨resp, hresp, hcode⟩ := checkAuth_false ext conf username hash r huser hauth
    refine ⟨resp, by rw [hresp], ?_, hcode⟩
    simp only [setFollowing, hpath, huser, hresp, Option.isNone_some, Bool.false_eq_true,
      if_false, Bool.not_false, if_true, Option.getD_some]
  · intro username hash hpath huser hauth hsize
    simp only [setFollowing, hpath, huser, checkAuth_true _ _ _ _ hauth, hsize,
      Option.isNone_some, Bool.false_eq_true, if_false, Bool.not_true, if_true]
  · intro username hash e hpath huser hauth hsize hload
    have hsz : ¬ (r.Body.length > 1 * 1024 * 1024) := by omega
    simp only [setFollowing, hpath, huser, checkAuth_true _ _ _ _ hauth, hsz, hjson, hdec,
      hne, hload, Option.isNone_some, Bool.false_eq_true, if_false, Bool.not_true]

theorem setFollowing_invalid_entry_witness :
    (setFollowing sampleExt sampleConf false false sampleDB sampleInvalidFollowingRequest
        (63839664060 * Second)).2 = sampleDB ∧
    (∃ u, (u ∈ ["@carol@example.org", "@dave"] ∨ u ∈ ([] : List String)) ∧
      followingUsernameRE u = false ∧
      (setFollowing sampleExt sampleConf false false sampleDB sampleInvalidFollowingRequest
          (63839664060 * Second)).1 =
        some { Code := 400, Body := .text ("Invalid global username: " ++ u) }) ∧
    (setFollowing sampleExt sampleConf true false sampleDB sampleInvalidFollowingRequest
        (63839664060 * Second)).1 =
      some { Code := 500, Body := .text "Error retrieving following list, not your fault.\nContact your server administrator or try again later." } :=
  ⟨(setFollowing_invalid_entry sampleExt sampleConf false false sampleDB
      sampleInvalidFollowingRequest (63839664060 * Second)
      (.obj [("add", .arr [.str "@carol@example.org", .str "@dave"])])
      { Add := ["@carol@example.org", "@dave"], Remove := [] }
      (by rfl) (by rfl) ⟨"@dave", Or.inl (by decide), by decide⟩).1,
   (setFollowing_invalid_entry sampleExt sampleConf false false sampleDB
      sampleInvalidFollowingRequest (63839664060 * Second)
      (.obj [("add", .arr [.str "@carol@example.org", .str "@dave"])])
      { Add := ["@carol@example.org", "@dave"], Remove := [] }
      (by rfl) (by rfl) ⟨"@dave", Or.inl (by decide), by decide⟩).2.1
      "alice" "hash-of-secret"
      { UpdatedAt := 63839664000 * Second, Usernames := some ["@bob@example.com"] }
      (by decide) (by decide) (by decide) (by decide) (by rfl),
   (setFollowing_invalid_entry sampleExt sampleConf true false sampleDB
      sampleInvalidFollowingRequest (63839664060 * Second)
      (.obj [("add", .arr [.str "@carol@example.org", .str "@dave"])])
      { Add := ["@carol@example.org", "@dave"], Remove := [] }
      (by rfl) (by rfl) ⟨"@dave", Or.inl (by decide), by decide⟩).2.2.2.2.2.2
      "alice" "hash-of-secret" DbErr.sql
      (by decide) (by decide) (by decide) (by decide) (by rfl)⟩

theorem decodeSetFollowing_repeated_key :
    decodeSetFollowing (.obj [("add", .arr [.str "@a@b"]), ("add", .arr [.null])])
      = some { Add := ["@a@b"], Remove := [] } := by
  rfl

/-- C10 as stated fails: an authenticated request of a provisioned account with
an entry that does not match the pattern is answered with 500, not 400, when
the stored following set cannot be loaded, because `setFollowing` loads the set
before it checks the entries; and the same request without credentials is
answered with 401. -/
theorem setFollowing_invalid_entry_not_always_400 :
    followingUsernameRE "@dave" = false ∧
    (setFollowing sampleExt sampleConf true false sampleDB sampleInvalidFollowingRequest
        (63839664060 * Second)).1.map Response.Code = some 500 ∧
    (setFollowing sampleExt sampleConf false false sampleDB
        { sampleInvalidFollowingRequest with BasicAuth := none }
        (63839664060 * Second)).1.map Response.Code = some 401 := by
  decide

/-! ## Following-set: repetition -/

theorem setFollowing_accepted (ext : Ext) (conf : TomlConfig) (db : DB) (r : Request)
    (now T : Time) (username hash : String) (doc : Json) (data : setFollowingJSON)
    (S : FollowingUsernames)
    (hpath : pathUsername r.Path "/following".utf8ByteSize = some username)
    (huser : conf.Users.lookup username = some hash)
    (hauth : (checkAuth ext conf username r).1 = true)
    (hsize : r.Body.length ≤ 1 * 1024 * 1024)
    (hjson : r.BodyJson = some doc)
    (hdec : decodeSetFollowing doc = some data)
    (hnonempty : ¬ (data.Add.length = 0 ∧ data.Remove.length = 0))
    (hadd : ∀ u ∈ data.Add, followingUsernameRE u = true)
    (hremove : ∀ u ∈ data.Remove, followingUsernameRE u = true)
    (hload : GetFollowing false db username = .ok { UpdatedAt := T, Usernames := some S }) :
    ∃ db2 : DB,
      setFollowing ext conf false false db r now = (some {}, db2) ∧
      GetFollowing false db2 username = .ok
        { UpdatedAt := now,
          Usernames := some (data.Remove.foldl FollowingUsernames.delete
            (data.Add.foldl FollowingUsernames.add S)) } := by
  obtain ⟨row, l, -, hrow, hl, hfu⟩ := GetFollowing_ok false db username _ hload
  have hS : S = l.foldl FollowingUsernames.add [] := by
    simp only [Following.mk.injEq, Option.some.injEq] at hfu
    exact hfu.2
  have hSnd : S.Nodup := by
    rw [hS]; exact nodup_foldl_add l [] List.nodup_nil
  have hPnd : (data.Remove.foldl FollowingUsernames.delete
      (data.Add.foldl FollowingUsernames.add S)).Nodup :=
    nodup_foldl_delete _ _ (nodup_foldl_add _ _ hSnd)
  refine ⟨{ db with following := db.following.map (fun kr =>
      if kr.1 = username then
        (kr.1, { updated_at := now,
                 usernames := FollowingUsernames.MarshalJSON
                   (data.Remove.foldl FollowingUsernames.delete
                     (data.Add.foldl FollowingUsernames.add S)) })
      else kr) }, ?_, ?_⟩
  · have hsz : ¬ (r.Body.length > 1 * 1024 * 1024) := by omega
    simp only [setFollowing, hpath, huser, checkAuth_true _ _ _ _ hauth, hjson, hdec, hload,
      hsz, hnonempty, addLoop_valid _ _ hadd, removeLoop_valid _ _ hremove, SetFollowing,
      Option.isNone_some, Bool.false_eq_true, if_false, Bool.not_true]
  · unfold GetFollowing
    simp only [Bool.false_eq_true, if_false]
    rw [lookup_map_key db.following username username
      (fun _ => { updated_at := now,
                  usernames := FollowingUsernames.MarshalJSON
                    (data.Remove.foldl FollowingUsernames.delete
                      (data.Add.foldl FollowingUsernames.add S)) }), hrow]
    simp only [Option.map_some', if_true, unmarshal_marshal _ hPnd]

/-- C11: an accepted Following-set request applied to a store whose following
set loads as `S`, and then applied once more to the store it left, succeeds
both times, and the set stored after the second application has exactly the
members of the set stored after the first: applying the request twice gives
the same set as applying it once. -/
theorem setFollowing_twice_same_set (ext : Ext) (conf : TomlConfig) (db : DB) (r : Request)
    (now1 now2 T : Time) (username hash : String) (doc : Json) (data : setFollowingJSON)
    (S : FollowingUsernames)
    (hpath : pathUsername r.Path "/following".utf8ByteSize = some username)
    (huser : conf.Users.lookup username = some hash)
    (hauth : (checkAuth ext conf username r).1 = true)
    (hsize : r.Body.length ≤ 1 * 1024 * 1024)
    (hjson : r.BodyJson = some doc)
    (hdec : decodeSetFollowing doc = some data)
    (hnonempty : ¬ (data.Add.length = 0 ∧ data.Remove.length = 0))
    (hadd : ∀ u ∈ data.Add, followingUsernameRE u = true)
    (hremove : ∀ u ∈ data.Remove, followingUsernameRE u = true)
    (hload : GetFollowing false db username = .ok { UpdatedAt := T, Usernames := some S }) :
    ∃ (db1 db2 : DB) (P1 P2 : FollowingUsernames),
      setFollowing ext conf false false db r now1 = (some {}, db1) ∧
      setFollowing ext conf false false db1 r now2 = (some {}, db2) ∧
      GetFollowing false db1 username = .ok { UpdatedAt := now1, Usernames := some P1 } ∧
      GetFollowing false db2 username = .ok { UpdatedAt := now2, Usernames := some P2 } ∧
      (∀ u, u ∈ P2 ↔ u ∈ P1) := by
  obtain ⟨db1, hrun1, hget1⟩ := setFollowing_accepted ext conf db r now1 T username hash doc
    data S hpath huser hauth hsize hjson hdec hnonempty hadd hremove hload
  obtain ⟨db2, hrun2, hget2⟩ := setFollowing_accepted ext conf db1 r now2 now1 username hash doc
    data _ hpath huser hauth hsize hjson hdec hnonempty hadd hremove hget1
  refine ⟨db1, db2, _, _, hrun1, hrun2, hget1, hget2, ?_⟩
  intro u
  simp only [mem_foldl_delete, mem_foldl_add]
  tauto

theorem setFollowing_twice_same_set_witness :
    ∃ (db1 db2 : DB) (P1 P2 : FollowingUsernames),
      setFollowing sampleExt sampleConf false false sampleDB sampleFollowingRequest
          (63839664060 * Second) = (some {}, db1) ∧
      setFollowing sampleExt sampleConf false false db1 sampleFollowingRequest
          (63839664120 * Second) = (some {}, db2) ∧
      GetFollowing false db1 "alice"
        = .ok { UpdatedAt := 63839664060 * Second, Usernames := some P1 } ∧
      GetFollowing false db2 "alice"
        = .ok { UpdatedAt := 63839664120 * Second, Usernames := some P2 } ∧
      (∀ u, u ∈ P2 ↔ u ∈ P1) :=
  setFollowing_twice_same_set sampleExt sampleConf sampleDB sampleFollowingRequest
    (63839664060 * Second) (63839664120 * Second) (63839664000 * Second) "alice"
    "hash-of-secret"
    (.obj [("add", .arr [.str "@carol@example.org", .str "@dave@example.org"]),
           ("remove", .arr [.str "@dave@example.org"])])
    { Add := ["@carol@example.org", "@dave@example.org"], Remove := ["@dave@example.org"] }
    ["@bob@example.com"]
    (by decide) (by decide) (by rfl) (by decide) (by rfl) (by rfl) (by decide)
    (by decide) (by decide) (by rfl)

/-! ## Auth guard -/

/-- C12: the outcome of `checkAuth` is that of the first case that applies,
in this order: no HTTP Basic credentials, 401; credential username different
from the path username, 400; path username not configured, 404; password
verification returning an error, 500; password not verifying, 401; otherwise
it returns true and writes nothing.  It returns false exactly when it wrote a
response, and every response it writes has an error code. -/
theorem checkAuth_first_case (ext : Ext) (conf : TomlConfig) (username : String) (r : Request) :
    (r.BasicAuth = none →
      checkAuth ext conf username r = (false, some (writeStatusCodePage 401))) ∧
    (∀ authUsername password, r.BasicAuth = some (authUsername, password) →
      authUsername ≠ username →
      checkAuth ext conf username r =
        (false, some { Code := 400,
                       Body := .text "Authentication username doesn't match username in URL" })) ∧
    (∀ password, r.BasicAuth = some (username, password) →
      conf.Users.lookup username = none →
      checkAuth ext conf username r = (false, some (writeStatusCodePage 404))) ∧
    (∀ password hash, r.BasicAuth = some (username, password) →
      conf.Users.lookup username = some hash → ext.verifyEncoded password hash = none →
      ∃ resp, checkAuth ext conf username r = (false, some resp) ∧ resp.Code = 500) ∧
    (∀ password hash, r.BasicAuth = some (username, password) →
      conf.Users.lookup username = some hash → ext.verifyEncoded password hash = some false →
      checkAuth ext conf username r =
        (false, some { Code := 401, Body := .text "Incorrect password" })) ∧
    (∀ password hash, r.BasicAuth = some (username, password) →
      conf.Users.lookup username = some hash → ext.verifyEncoded password hash = some true →
      checkAuth ext conf username r = (true, none)) ∧
    ((checkAuth ext conf username r).1 = false ↔
      ∃ resp, (checkAuth ext conf username r).2 = some resp ∧ 400 ≤ resp.Code) := by
  refine ⟨?_, ?_, ?_, ?_, ?_, ?_, ?_⟩
  · intro h
    simp [checkAuth, h]
  · intro au pw h hne
    simp [checkAuth, h, hne]
  · intro pw h hl
    simp [checkAuth, h, hl]
  · intro pw hash h hl hv
    simp only [checkAuth, h, hl, hv, ne_eq, not_true_eq_false, if_false]
    exact ⟨_, rfl, rfl⟩
  · intro pw hash h hl hv
    simp [checkAuth, h, hl, hv]
  · intro pw hash h hl hv
    simp [checkAuth, h, hl, hv]
  · unfold checkAuth
    cases hba : r.BasicAuth with
    | none => simp [writeStatusCodePage]
    | some up =>
      obtain ⟨au, pw⟩ := up
      simp only []
      by_cases hne : au ≠ username
      · simp [hne]
      · simp only [hne, if_false]
        cases hl : conf.Users.lookup username with
        | none => simp [writeStatusCodePage]
        | some hash =>
          simp only []
          cases hv : ext.verifyEncoded pw hash with
          | none => simp
          | some ok =>
            cases ok <;> simp

theorem checkAuth_first_case_witness :
    checkAuth sampleExt sampleConf "alice" {} = (false, some (writeStatusCodePage 401)) ∧
    checkAuth sampleExt sampleConf "alice" { BasicAuth := some ("bob", "secret") } =
      (false, some { Code := 400,
                     Body := .text "Authentication username doesn't match username in URL" }) ∧
    checkAuth sampleExt sampleConf "ghost" { BasicAuth := some ("ghost", "secret") } =
      (false, some (writeStatusCodePage 404)) ∧
    (∃ resp, checkAuth sampleExt { Users := [("carol", "corrupt")] } "carol"
        { BasicAuth := some ("carol", "secret") } = (false, some resp) ∧ resp.Code = 500) ∧
    checkAuth sampleExt sampleConf "alice" { BasicAuth := some ("alice", "guess") } =
      (false, some { Code := 401, Body := .text "Incorrect password" }) ∧
    checkAuth sampleExt sampleConf "alice" { BasicAuth := some ("alice", "secret") } =
      (true, none) :=
  ⟨(checkAuth_first_case sampleExt sampleConf "alice" {}).1 rfl,
   (checkAuth_first_case sampleExt sampleConf "alice"
      { BasicAuth := some ("bob", "secret") }).2.1 "bob" "secret" rfl (by decide),
   (checkAuth_first_case sampleExt sampleConf "ghost"
      { BasicAuth := some ("ghost", "secret") }).2.2.1 "secret" rfl (by decide),
   (checkAuth_first_case sampleExt { Users := [("carol", "corrupt")] } "carol"
      { BasicAuth := some ("carol", "secret") }).2.2.2.1 "secret" "corrupt" rfl (by decide)
      (by decide),
   (checkAuth_first_case sampleExt sampleConf "alice"
      { BasicAuth := some ("alice", "guess") }).2.2.2.2.1 "guess" "hash-of-secret" rfl
      (by decide) (by decide),
   (checkAuth_first_case sampleExt sampleConf "alice"
      { BasicAuth := some ("alice", "secret") }).2.2.2.2.2.1 "secret" "hash-of-secret" rfl
      (by decide) (by decide)⟩

/-! ## Accounts that are not provisioned -/

theorem utf8ByteSize_eq_utf8Len (s : String) : s.utf8ByteSize = String.utf8Len s.data := by
  cases s; rfl

theorem utf8ByteSize_append (s t : String) :
    (s ++ t).utf8ByteSize = s.utf8ByteSize + t.utf8ByteSize := by
  simp only [utf8ByteSize_eq_utf8Len, String.data_append, String.utf8Len_append]

theorem pathUsername_of (u tail : String) :
    pathUsername (userPathLead ++ u ++ tail) tail.utf8ByteSize = some u := by
  unfold pathUsername
  have hsize : (userPathLead ++ u ++ tail).utf8ByteSize
      = userPathLead.utf8ByteSize + u.utf8ByteSize + tail.utf8ByteSize := by
    simp only [utf8ByteSize_append]
  have hnot : ¬ ((userPathLead ++ u ++ tail).utf8ByteSize
      < userPathLead.utf8ByteSize + tail.utf8ByteSize) := by omega
  rw [if_neg hnot]
  have hend : (userPathLead ++ u ++ tail).utf8ByteSize - tail.utf8ByteSize
      = String.utf8Len userPathLead.data + String.utf8Len u.data := by
    rw [hsize, utf8ByteSize_eq_utf8Len userPathLead, utf8ByteSize_eq_utf8Len u]
    omega
  rw [hend]
  have hdata : userPathLead ++ u ++ tail = ⟨userPathLead.data ++ u.data ++ tail.data⟩ := by
    apply String.ext
    simp only [String.data_append]
  rw [utf8ByteSize_eq_utf8Len userPathLead, hdata, String.extract_of_valid]

theorem unprovisioned_handlers (ext : Ext) (conf : TomlConfig)
    (decode : List Nat → ImageDecode) (hf : HandlerFaults) (db : DB) (r : Request) (now : Time)
    (username : String) (hghost : conf.Users.lookup username = none) :
    (pathUsername r.Path 0 = some username →
      setStatus ext conf hf.execFail db r now = (some (writeStatusCodePage 404), db)) ∧
    (pathUsername r.Path "/avatar".utf8ByteSize = some username →
      setAvatar ext conf decode hf.avatar db r now = (some (writeStatusCodePage 404), db)) ∧
    (pathUsername r.Path "/following".utf8ByteSize = some username →
      getFollowing ext conf hf.getFail db r = some (writeStatusCodePage 404) ∧
      setFollowing ext conf hf.getFail hf.setFail db r now
        = (some (writeStatusCodePage 404), db)) := by
  refine ⟨?_, ?_, ?_⟩
  · intro hp
    simp [setStatus, hp, hghost]
  · intro hp
    simp [setAvatar, hp, hghost]
  · intro hp
    constructor
    · simp [getFollowing, hp, hghost]
    · simp [setFollowing, hp, hghost]

/-- C13: when the username in the path is not a configured account, each
account-scoped handler answers 404 and returns the store as it was, whatever
the method, the credentials (none, any username, any password), the headers,
the body and the faults of the environment: `setStatus` on the path of the
account, `setAvatar` (so both PUT and DELETE) on its avatar path, and
`getFollowing` and `setFollowing` on its following path. -/
theorem unprovisioned_is_404 (ext : Ext) (conf : TomlConfig) (decode : List Nat → ImageDecode)
    (hf : HandlerFaults) (db : DB) (r : Request) (now : Time) (username : String)
    (hghost : conf.Users.lookup username = none) :
    setStatus ext conf hf.execFail db { r with Path := userPathLead ++ username } now
      = (some (writeStatusCodePage 404), db) ∧
    setAvatar ext conf decode hf.avatar db
        { r with Path := userPathLead ++ username ++ "/avatar" } now
      = (some (writeStatusCodePage 404), db) ∧
    getFollowing ext conf hf.getFail db
        { r with Path := userPathLead ++ username ++ "/following" }
      = some (writeStatusCodePage 404) ∧
    setFollowing ext conf hf.getFail hf.setFail db
        { r with Path := userPathLead ++ username ++ "/following" } now
      = (some (writeStatusCodePage 404), db) := by
  have h0 : pathUsername (userPathLead ++ username) 0 = some username := by
    have := pathUsername_of username ""
    simpa using this
  have hs := (unprovisioned_handlers ext conf decode hf db
    { r with Path := userPathLead ++ username } now username hghost).1 h0
  have ha := (unprovisioned_handlers ext conf decode hf db
    { r with Path := userPathLead ++ username ++ "/avatar" } now username hghost).2.1
    (pathUsername_of username "/avatar")
  have hfo := (unprovisioned_handlers ext conf decode hf db
    { r with Path := userPathLead ++ username ++ "/following" } now username hghost).2.2
    (pathUsername_of username "/following")
  exact ⟨hs, ha, hfo.1, hfo.2⟩

theorem unprovisioned_is_404_witness :
    setStatus sampleExt sampleConf false sampleDB
        { Method := "PATCH", Path := userPathLead ++ "ghost",
          BasicAuth := some ("ghost", "secret") } (63839664060 * Second)
      = (some (writeStatusCodePage 404), sampleDB) ∧
    setAvatar sampleExt sampleConf (fun _ => .formatErr) {} sampleDB
        { Method := "PATCH", Path := userPathLead ++ "ghost" ++ "/avatar",
          BasicAuth := some ("ghost", "secret") } (63839664060 * Second)
      = (some (writeStatusCodePage 404), sampleDB) ∧
    getFollowing sampleExt sampleConf false sampleDB
        { Method := "PATCH", Path := userPathLead ++ "ghost" ++ "/following",
          BasicAuth := some ("ghost", "secret") }
      = some (writeStatusCodePage 404) ∧
    setFollowing sampleExt sampleConf false false sampleDB
        { Method := "PATCH", Path := userPathLead ++ "ghost" ++ "/following",
          BasicAuth := some ("ghost", "secret") } (63839664060 * Second)
      = (some (writeStatusCodePage 404), sampleDB) :=
  unprovisioned_is_404 sampleExt sampleConf (fun _ => .formatErr) {} sampleDB
    { Method := "PATCH", BasicAuth := some ("ghost", "secret") } (63839664060 * Second)
    "ghost" (by decide)

/-! ## Routing -/

theorem utf8ByteSize_pos_of_ne_empty (u : String) (h : u ≠ "") : 0 < u.utf8ByteSize := by
  rw [utf8ByteSize_eq_utf8Len]
  have hne : u.data ≠ [] := by
    intro hd
    apply h
    apply String.ext
    simpa using hd
  have : String.utf8Len u.data ≠ 0 := by
    intro h0
    exact hne (String.utf8Len_eq_zero.1 h0)
  omega

theorem followingPath_facts (u : String) (hu : u ≠ "") :
    userPathLead ++ u ++ "/following" ≠ "/.well-known/fmrl/user/" ∧
    countSlashes (userPathLead ++ u ++ "/following") ≠ 4 ∧
    hasSuffix (userPathLead ++ u ++ "/following") "/avatar" = false ∧
    hasSuffix (userPathLead ++ u ++ "/following") "/following" = true ∧
    (userPathLead ++ u ++ "/following").utf8ByteSize
      > "/.well-known/fmrl/user//following".utf8ByteSize := by
  have hpos := utf8ByteSize_pos_of_ne_empty u hu
  have hsize : (userPathLead ++ u ++ "/following").utf8ByteSize
      = 23 + u.utf8ByteSize + 10 := by
    simp only [utf8ByteSize_append]
    rfl
  refine ⟨?_, ?_, ?_, ?_, ?_⟩
  · intro h
    have hsz := congrArg String.utf8ByteSize h
    have h23 : "/.well-known/fmrl/user/".utf8ByteSize = 23 := by decide
    rw [hsize, h23] at hsz
    omega
  · unfold countSlashes
    have h1 : List.count '/' userPathLead.data = 4 := by decide
    have h2 : List.count '/' "/following".data = 1 := by decide
    rw [String.data_append, String.data_append, List.count_append, List.count_append, h1, h2]
    omega
  · unfold hasSuffix
    rw [Bool.eq_false_iff]
    intro h
    rw [List.isSuffixOf_iff_suffix] at h
    have hf : "/following".data <:+ (userPathLead ++ u ++ "/following").data := by
      simp only [String.data_append]
      exact List.suffix_append _ _
    have hlen : "/avatar".data.length ≤ "/following".data.length := by decide
    have := List.suffix_of_suffix_length_le h hf hlen
    rw [← List.isSuffixOf_iff_suffix] at this
    exact absurd this (by decide)
  · unfold hasSuffix
    rw [List.isSuffixOf_iff_suffix]
    simp only [String.data_append]
    exact List.suffix_append _ _
  · rw [hsize]
    have : "/.well-known/fmrl/user//following".utf8ByteSize = 33 := by decide
    omega

/-- C14: for every method and every path made of the user path, a non-empty
username `u` and `/following`, `userPath` calls `getFollowing` when the method
is GET, `setFollowing` when it is PATCH, and answers 405 itself, with the store
untouched, for every other method; it calls neither `setStatus` nor
`setAvatar`: the answer and the store `userPath` leaves are those of the
handler called.  The username the two handlers slice out of that path is
exactly `u`: the slice bounds are in range and the username is not empty; so
when `u` is not a provisioned account, GET and PATCH are answered with 404. -/
theorem userPath_following (ext : Ext) (conf : TomlConfig) (decode : List Nat → ImageDecode)
    (hf : HandlerFaults) (db : DB) (now : Time) (r : Request) (u : String) (hu : u ≠ "")
    (hpath : r.Path = userPathLead ++ u ++ "/following") :
    userPathDispatch r =
      (if r.Method = "GET" then Dispatch.getFollowing
       else if r.Method = "PATCH" then Dispatch.setFollowing
       else Dispatch.respond { Code := 405 }) ∧
    userPath ext conf decode hf db r now =
      (if r.Method = "GET" then (getFollowing ext conf hf.getFail db r, db)
       else if r.Method = "PATCH" then setFollowing ext conf hf.getFail hf.setFail db r now
       else (some { Code := 405, LastModified := none, ContentType := none, Body := .text "" },
             db)) ∧
    pathUsername r.Path "/following".utf8ByteSize = some u ∧
    u.utf8ByteSize ≠ 0 ∧
    (conf.Users.lookup u = none → r.Method = "GET" ∨ r.Method = "PATCH" →
      userPath ext conf decode hf db r now = (some (writeStatusCodePage 404), db)) := by
  obtain ⟨hne, hcount, hav, hfo, hlen⟩ := followingPath_facts u hu
  have hdispatch : userPathDispatch r =
      (if r.Method = "GET" then Dispatch.getFollowing
       else if r.Method = "PATCH" then Dispatch.setFollowing
       else Dispatch.respond { Code := 405 }) := by
    unfold userPathDispatch
    rw [hpath]
    by_cases hget : r.Method = "GET"
    · simp [hget, hne, hav, hfo, hlen]
    · by_cases hpatch : r.Method = "PATCH"
      · simp [hpatch, hne, hcount, hav, hfo, hlen]
      · by_cases hput : r.Method = "PUT"
        · simp [hput, hne, hav, hfo, hlen]
        · by_cases hdel : r.Method = "DELETE"
          · simp [hdel, hne, hav, hfo, hlen]
          · simp [hget, hpatch, hput, hdel]
  have hslice : pathUsername r.Path "/following".utf8ByteSize = some u := by
    rw [hpath]
    exact pathUsername_of u "/following"
  have hrun : userPath ext conf decode hf db r now =
      (if r.Method = "GET" then (getFollowing ext conf hf.getFail db r, db)
       else if r.Method = "PATCH" then setFollowing ext conf hf.getFail hf.setFail db r now
       else (some { Code := 405, LastModified := none, ContentType := none, Body := .text "" },
             db)) := by
    unfold userPath
    rw [hdispatch]
    by_cases hget : r.Method = "GET"
    · simp only [hget, if_true]
    · by_cases hpatch : r.Method = "PATCH"
      · rw [if_neg hget, if_pos hpatch, if_neg hget, if_pos hpatch]
      · rw [if_neg hget, if_neg hpatch, if_neg hget, if_neg hpatch]
  refine ⟨hdispatch, hrun, hslice, ?_, ?_⟩
  · have := utf8ByteSize_pos_of_ne_empty u hu
    omega
  · intro hghost hmethod
    obtain ⟨hg, hs⟩ := (unprovisioned_handlers ext conf decode hf db r now u hghost).2.2 hslice
    rw [hrun]
    by_cases hget : r.Method = "GET"
    · rw [if_pos hget, hg]
    · have hpatch : r.Method = "PATCH" := by
        rcases hmethod with h | h
        · exact absurd h hget
        · exact h
      rw [if_neg hget, if_pos hpatch, hs]

theorem userPath_following_witness :
    (userPathDispatch { Method := "GET", Path := userPathLead ++ "alice" ++ "/following" } =
        Dispatch.getFollowing ∧
      userPath sampleExt sampleConf (fun _ => .formatErr) {} sampleDB
          { Method := "GET", Path := userPathLead ++ "alice" ++ "/following" }
          (63839664060 * Second) =
        (getFollowing sampleExt sampleConf false sampleDB
          { Method := "GET", Path := userPathLead ++ "alice" ++ "/following" }, sampleDB) ∧
      pathUsername (userPathLead ++ "alice" ++ "/following") "/following".utf8ByteSize
        = some "alice" ∧
      "alice".utf8ByteSize ≠ 0) ∧
    (userPathDispatch { Method := "PATCH", Path := userPathLead ++ "a/b" ++ "/following" } =
        Dispatch.setFollowing ∧
      userPath sampleExt sampleConf (fun _ => .formatErr) {} sampleDB
          { Method := "PATCH", Path := userPathLead ++ "a/b" ++ "/following" }
          (63839664060 * Second) =
        setFollowing sampleExt sampleConf false false sampleDB
          { Method := "PATCH", Path := userPathLead ++ "a/b" ++ "/following" }
          (63839664060 * Second) ∧
      pathUsername (userPathLead ++ "a/b" ++ "/following") "/following".utf8ByteSize
        = some "a/b" ∧
      "a/b".utf8ByteSize ≠ 0 ∧
      userPath sampleExt sampleConf (fun _ => .formatErr) {} sampleDB
          { Method := "PATCH", Path := userPathLead ++ "a/b" ++ "/following" }
          (63839664060 * Second) = (some (writeStatusCodePage 404), sampleDB)) ∧
    (userPathDispatch { Method := "DELETE", Path := userPathLead ++ "alice" ++ "/following" } =
        Dispatch.respond { Code := 405 } ∧
      userPath sampleExt sampleConf (fun _ => .formatErr) {} sampleDB
          { Method := "DELETE", Path := userPathLead ++ "alice" ++ "/following" }
          (63839664060 * Second) =
        (some { Code := 405, LastModified := none, ContentType := none, Body := .text "" },
          sampleDB) ∧
      pathUsername (userPathLead ++ "alice" ++ "/following") "/following".utf8ByteSize
        = some "alice" ∧
      "alice".utf8ByteSize ≠ 0) :=
  ⟨(fun h => ⟨h.1, h.2.1, h.2.2.1, h.2.2.2.1⟩)
     (userPath_following sampleExt sampleConf (fun _ => .formatErr) {} sampleDB
        (63839664060 * Second)
        { Method := "GET", Path := userPathLead ++ "alice" ++ "/following" }
        "alice" (by decide) rfl),
   (fun h => ⟨h.1, h.2.1, h.2.2.1, h.2.2.2.1, h.2.2.2.2 (by decide) (Or.inr rfl)⟩)
     (userPath_following sampleExt sampleConf (fun _ => .formatErr) {} sampleDB
        (63839664060 * Second)
        { Method := "PATCH", Path := userPathLead ++ "a/b" ++ "/following" }
        "a/b" (by decide) rfl),
   (fun h => ⟨h.1, h.2.1, h.2.2.1, h.2.2.2.1⟩)
     (userPath_following sampleExt sampleConf (fun _ => .formatErr) {} sampleDB
        (63839664060 * Second)
        { Method := "DELETE", Path := userPathLead ++ "alice" ++ "/following" }
        "alice" (by decide) rfl)⟩

/-! ## Batch status query: entries -/

theorem statusQueryEntry_fst (conf : TomlConfig) (fail : Bool) (db : DB) (ifModTime : Time)
    (username : String) (newest : Time) :
    (statusQueryEntry conf fail db ifModTime username newest).1
      = entryFor conf fail db ifModTime username := by
  unfold statusQueryEntry entryFor
  cases hl : conf.Users.lookup username with
  | none => simp [StatusText]
  | some hash =>
    simp only [Option.isNone_some, Bool.false_eq_true, if_false]
    cases hg : GetUser fail db username with
    | error e => simp [StatusText]
    | ok status =>
      simp only [Time.Before]
      by_cases hlt : status.UpdatedAt < ifModTime
      · simp [hlt]
      · simp [hlt]

theorem statusQueryLoop_fst (conf : TomlConfig) (fails : Nat → Bool) (db : DB)
    (ifModTime : Time) (l : List String) (i : Nat) (newest : Time) :
    (statusQueryLoop conf fails db ifModTime l i newest).1
      = (l.enumFrom i).map (fun p => entryFor conf (fails p.1) db ifModTime p.2) := by
  induction l generalizing i newest with
  | nil => rfl
  | cons u us ih =>
    simp only [statusQueryLoop, List.enumFrom_cons, List.map_cons, statusQueryEntry_fst, ih]

theorem statusQuery_eq (conf : TomlConfig) (fails : Nat → Bool) (db : DB) (r : Request)
    (usernames : List String)
    (hpath : r.Path = "/.well-known/fmrl/users") (hquery : r.QueryUser = some usernames) :
    statusQuery conf fails db r =
      { Code := 200,
        LastModified := some
          (if (statusQueryLoop conf fails db (ifModTimeOf r) usernames 0 Time.zero).2.IsZero then
            if (ifModTimeOf r).IsZero then unixEpoch else ifModTimeOf r
           else (statusQueryLoop conf fails db (ifModTimeOf r) usernames 0 Time.zero).2),
        ContentType := some "application/json",
        Body := .users (statusQueryLoop conf fails db (ifModTimeOf r) usernames 0 Time.zero).1 } := by
  unfold statusQuery ifModTimeOf
  simp only [hpath, hquery, ne_eq, not_true_eq_false, if_false]

/-- C15: the batch status query on a list of usernames answers 200 with an
array of the same length whose i-th entry is the entry of the i-th requested
username alone: it carries that username, and its code and data come from the
lookup of that username only (404 when not provisioned, 500 when its row cannot
be read, else 304 or 200 with the status).  Hence a query on another list,
with other faults, that has the same username and the same fault at position
`i` has the same entry at position `i`: usernames that are not provisioned or
fail, and duplicates, do not change any other entry. -/
theorem statusQuery_entries (conf : TomlConfig) (fails : Nat → Bool) (db : DB) (r : Request)
    (usernames : List String)
    (hpath : r.Path = "/.well-known/fmrl/users") (hquery : r.QueryUser = some usernames) :
    ∃ us : List statusQueryUser,
      (statusQuery conf fails db r).Code = 200 ∧
      (statusQuery conf fails db r).Body = .users us ∧
      us.length = usernames.length ∧
      (∀ i username, usernames[i]? = some username →
        us[i]? = some (entryFor conf (fails i) db (ifModTimeOf r) username) ∧
        (entryFor conf (fails i) db (ifModTimeOf r) username).Username = username) ∧
      (∀ (fails2 : Nat → Bool) (r2 : Request) (usernames2 : List String) (i : Nat),
        r2.Path = "/.well-known/fmrl/users" → r2.QueryUser = some usernames2 →
        r2.IfModifiedSince = r.IfModifiedSince →
        usernames2[i]? = usernames[i]? → fails2 i = fails i →
        ∃ us2, (statusQuery conf fails2 db r2).Body = .users us2 ∧ us2[i]? = us[i]?) := by
  have hentries : ∀ (fs : Nat → Bool) (M : Time) (l : List String) (i : Nat),
      (statusQueryLoop conf fs db M l 0 Time.zero).1[i]?
        = l[i]?.map (fun u => entryFor conf (fs i) db M u) := by
    intro fs M l i
    rw [statusQueryLoop_fst]
    simp only [List.getElem?_map, List.getElem?_enumFrom, Option.map_map]
    cases l[i]? with
    | none => rfl
    | some u => simp
  refine ⟨(statusQueryLoop conf fails db (ifModTimeOf r) usernames 0 Time.zero).1, ?_, ?_, ?_,
    ?_, ?_⟩
  · rw [statusQuery_eq conf fails db r usernames hpath hquery]
  · rw [statusQuery_eq conf fails db r usernames hpath hquery]
  · rw [statusQueryLoop_fst]
    simp
  · intro i username hi
    constructor
    · rw [hentries, hi]
      rfl
    · unfold entryFor
      cases conf.Users.lookup username with
      | none => rfl
      | some hash =>
        simp only []
        cases GetUser (fails i) db username with
        | error e => rfl
        | ok status =>
          simp only []
          split <;> rfl
  · intro fails2 r2 usernames2 i hpath2 hquery2 hims hsame hfail
    refine ⟨(statusQueryLoop conf fails2 db (ifModTimeOf r2) usernames2 0 Time.zero).1, ?_, ?_⟩
    · rw [statusQuery_eq conf fails2 db r2 usernames2 hpath2 hquery2]
    · have hM : ifModTimeOf r2 = ifModTimeOf r := by
        unfold ifModTimeOf
        rw [hims]
      rw [hentries, hentries, hsame, hfail, hM]

theorem statusQuery_entries_witness :
    ∃ us : List statusQueryUser,
      (statusQuery sampleConf (fun i => decide (i = 3)) sampleDB
        { Path := "/.well-known/fmrl/users",
          QueryUser := some ["ghost", "alice", "ghost", "alice"] }).Code = 200 ∧
      (statusQuery sampleConf (fun i => decide (i = 3)) sampleDB
        { Path := "/.well-known/fmrl/users",
          QueryUser := some ["ghost", "alice", "ghost", "alice"] }).Body = .users us ∧
      us.length = ["ghost", "alice", "ghost", "alice"].length ∧
      (∀ i username, ["ghost", "alice", "ghost", "alice"][i]? = some username →
        us[i]? = some (entryFor sampleConf (decide (i = 3)) sampleDB
          (ifModTimeOf { Path := "/.well-known/fmrl/users",
                         QueryUser := some ["ghost", "alice", "ghost", "alice"] }) username) ∧
        (entryFor sampleConf (decide (i = 3)) sampleDB
          (ifModTimeOf { Path := "/.well-known/fmrl/users",
                         QueryUser := some ["ghost", "alice", "ghost", "alice"] })
          username).Username = username) ∧
      (∀ (fails2 : Nat → Bool) (r2 : Request) (usernames2 : List String) (i : Nat),
        r2.Path = "/.well-known/fmrl/users" → r2.QueryUser = some usernames2 →
        r2.IfModifiedSince = none →
        usernames2[i]? = ["ghost", "alice", "ghost", "alice"][i]? →
        fails2 i = decide (i = 3) →
        ∃ us2, (statusQuery sampleConf fails2 sampleDB r2).Body = .users us2 ∧
          us2[i]? = us[i]?) :=
  statusQuery_entries sampleConf (fun i => decide (i = 3)) sampleDB
    { Path := "/.well-known/fmrl/users", QueryUser := some ["ghost", "alice", "ghost", "alice"] }
    ["ghost", "alice", "ghost", "alice"] rfl rfl

/-! ## Batch status query: Last-Modified -/

theorem statusQueryEntry_snd (conf : TomlConfig) (fail : Bool) (db : DB) (ifModTime : Time)
    (username : String) (newest : Time) :
    (statusQueryEntry conf fail db ifModTime username newest).2
      = (okTimes [(statusQueryEntry conf fail db ifModTime username newest).1]).foldl max newest := by
  unfold statusQueryEntry okTimes
  cases hl : conf.Users.lookup username with
  | none => simp
  | some hash =>
    simp only [Option.isNone_some, Bool.false_eq_true, if_false]
    cases hg : GetUser fail db username with
    | error e => simp
    | ok status =>
      simp only [Time.Before, Time.After]
      by_cases hlt : status.UpdatedAt < ifModTime
      · simp [hlt]
      · simp only [hlt, decide_False, Bool.false_eq_true, if_false, List.filterMap_cons,
          if_true, Option.map_some', List.filterMap_nil, List.foldl_cons, List.foldl_nil,
          decide_eq_true_eq]
        by_cases hgt : status.UpdatedAt > newest
        · rw [if_pos hgt]
          exact (max_eq_right (le_of_lt hgt)).symm
        · rw [if_neg hgt]
          exact (max_eq_left (not_lt.1 hgt)).symm

theorem okTimes_cons (e : statusQueryUser) (es : List statusQueryUser) :
    okTimes (e :: es) = okTimes [e] ++ okTimes es := by
  unfold okTimes
  rw [← List.filterMap_append]
  rfl

theorem statusQueryLoop_snd (conf : TomlConfig) (fails : Nat → Bool) (db : DB)
    (ifModTime : Time) (l : List String) (i : Nat) (newest : Time) :
    (statusQueryLoop conf fails db ifModTime l i newest).2
      = (okTimes (statusQueryLoop conf fails db ifModTime l i newest).1).foldl max newest := by
  induction l generalizing i newest with
  | nil => rfl
  | cons u us ih =>
    simp only [statusQueryLoop]
    rw [okTimes_cons, List.foldl_append, ← statusQueryEntry_snd, ← ih]

theorem foldl_max_ge (ts : List Time) (n : Time) :
    n ≤ ts.foldl max n ∧ ∀ t ∈ ts, t ≤ ts.foldl max n := by
  induction ts generalizing n with
  | nil => simp
  | cons a as ih =>
    simp only [List.foldl_cons, List.mem_cons]
    obtain ⟨h1, h2⟩ := ih (max n a)
    refine ⟨le_trans (le_max_left n a) h1, ?_⟩
    rintro t (rfl | ht)
    · exact le_trans (le_max_right n t) h1
    · exact h2 t ht

theorem foldl_max_mem (ts : List Time) (n : Time) :
    ts.foldl max n = n ∨ ts.foldl max n ∈ ts := by
  induction ts generalizing n with
  | nil => simp
  | cons a as ih =>
    simp only [List.foldl_cons, List.mem_cons]
    rcases ih (max n a) with h | h
    · rw [h]
      rcases max_choice n a with hm | hm
      · exact Or.inl hm
      · exact Or.inr (Or.inl hm)
    · exact Or.inr (Or.inr h)

/-- C16 as amended: in the answer of the batch status query, when some entry
with code 200 has an `updated_at` after the zero time, Last-Modified is the
maximum `updated_at` over the entries with code 200; when there is no such
entry, in particular when no entry has code 200, Last-Modified is the Unix
epoch if the header `If-Modified-Since` is absent, does not parse, or parses
to the zero time, and the parsed time of the header otherwise. -/
theorem statusQuery_lastModified (conf : TomlConfig) (fails : Nat → Bool) (db : DB)
    (r : Request) (usernames : List String)
    (hpath : r.Path = "/.well-known/fmrl/users") (hquery : r.QueryUser = some usernames) :
    ∃ (us : List statusQueryUser) (lm : Time),
      (statusQuery conf fails db r).Body = .users us ∧
      (statusQuery conf fails db r).LastModified = some lm ∧
      ((∃ t ∈ okTimes us, 0 < t) → lm ∈ okTimes us ∧ ∀ t ∈ okTimes us, t ≤ lm) ∧
      ((∀ t ∈ okTimes us, t ≤ 0) →
        (r.IfModifiedSince = none → lm = unixEpoch) ∧
        (r.IfModifiedSince = some none → lm = unixEpoch) ∧
        (∀ m, r.IfModifiedSince = some (some m) → lm = if m = 0 then unixEpoch else m)) := by
  rw [statusQuery_eq conf fails db r usernames hpath hquery]
  refine ⟨_, _, rfl, rfl, ?_, ?_⟩
  · rintro ⟨t, ht, hpos⟩
    rw [statusQueryLoop_snd]
    obtain ⟨-, hge⟩ := foldl_max_ge
      (okTimes (statusQueryLoop conf fails db (ifModTimeOf r) usernames 0 Time.zero).1) Time.zero
    have hnz : ¬ ((okTimes (statusQueryLoop conf fails db (ifModTimeOf r) usernames 0
        Time.zero).1).foldl max Time.zero = 0) := by
      intro h0
      have hle := hge t ht
      rw [h0] at hle
      exact absurd hpos (not_lt.2 hle)
    simp only [Time.IsZero, hnz, decide_False, Bool.false_eq_true, if_false]
    refine ⟨?_, hge⟩
    rcases foldl_max_mem
      (okTimes (statusQueryLoop conf fails db (ifModTimeOf r) usernames 0 Time.zero).1)
      Time.zero with h | h
    · exact absurd h hnz
    · exact h
  · intro hall
    have hz : (statusQueryLoop conf fails db (ifModTimeOf r) usernames 0 Time.zero).2 = 0 := by
      rw [statusQueryLoop_snd]
      rcases foldl_max_mem
        (okTimes (statusQueryLoop conf fails db (ifModTimeOf r) usernames 0 Time.zero).1)
        Time.zero with h | h
      · exact h
      · have h1 := hall _ h
        have h2 := (foldl_max_ge
          (okTimes (statusQueryLoop conf fails db (ifModTimeOf r) usernames 0 Time.zero).1)
          Time.zero).1
        exact le_antisymm h1 h2
    simp only [Time.IsZero, hz, decide_True, if_true]
    refine ⟨?_, ?_, ?_⟩
    · intro h
      simp [ifModTimeOf, h, Time.zero]
    · intro h
      simp [ifModTimeOf, h, Time.zero]
    · intro m h
      simp [ifModTimeOf, h]

theorem statusQuery_lastModified_witness :
    ∃ (us : List statusQueryUser) (lm : Time),
      (statusQuery sampleConf (fun _ => false) sampleDB
        sampleStatusQueryRequest).Body = .users us ∧
      (statusQuery sampleConf (fun _ => false) sampleDB
        sampleStatusQueryRequest).LastModified = some lm ∧
      ((∃ t ∈ okTimes us, 0 < t) → lm ∈ okTimes us ∧ ∀ t ∈ okTimes us, t ≤ lm) ∧
      ((∀ t ∈ okTimes us, t ≤ 0) →
        (sampleStatusQueryRequest.IfModifiedSince = none → lm = unixEpoch) ∧
        (sampleStatusQueryRequest.IfModifiedSince = some none → lm = unixEpoch) ∧
        (∀ m, sampleStatusQueryRequest.IfModifiedSince = some (some m) →
          lm = if m = 0 then unixEpoch else m)) :=
  statusQuery_lastModified sampleConf (fun _ => false) sampleDB sampleStatusQueryRequest
    ["ghost", "alice"] rfl rfl

/-- C16 as stated fails: with no entry of code 200 and a header
`If-Modified-Since` that is supplied, Last-Modified is the Unix epoch and not
the time of the header, both when the header does not parse and when it parses
to the zero time (January 1, year 1). -/
theorem statusQuery_lastModified_not_header :
    (statusQuery sampleConf (fun _ => false) sampleDB
      { Path := "/.well-known/fmrl/users", QueryUser := some ["ghost"],
        IfModifiedSince := some none }).LastModified = some unixEpoch ∧
    (statusQuery sampleConf (fun _ => false) sampleDB
      { Path := "/.well-known/fmrl/users", QueryUser := some ["ghost"],
        IfModifiedSince := some (some 0) }).LastModified = some unixEpoch ∧
    unixEpoch ≠ (0 : Time) ∧
    (statusQueryLoop sampleConf (fun _ => false) sampleDB 0 ["ghost"] 0 Time.zero).1.map
      statusQueryUser.Code = [404] := by
  decide

/-! ## Following-get -/

/-- C17: an authenticated Following-get on a provisioned account whose row in
`following` holds the document `B` and `updated_at = T` is answered, for the
time `M` of `If-Modified-Since` (the zero time when the header is absent or
does not parse), with 304 and no body exactly when `T` is before `M` or `T`
truncated to whole seconds equals `M`, and otherwise with 200 and the stored
document `B` as it is; in both cases Last-Modified is `T`. -/
theorem getFollowing_conditional (ext : Ext) (conf : TomlConfig) (db : DB) (r : Request)
    (username hash : String) (B : Json) (T : Time)
    (hpath : pathUsername r.Path "/following".utf8ByteSize = some username)
    (huser : conf.Users.lookup username = some hash)
    (hauth : (checkAuth ext conf username r).1 = true)
    (hrow : db.following.lookup username = some { updated_at := T, usernames := B }) :
    (T < ifModTimeOf r ∨ T - T % 1000000000 = ifModTimeOf r →
      getFollowing ext conf false db r =
        some { Code := 304, LastModified := some T, ContentType := none, Body := .text "" }) ∧
    (¬ (T < ifModTimeOf r ∨ T - T % 1000000000 = ifModTimeOf r) →
      getFollowing ext conf false db r =
        some { Code := 200, LastModified := some T, ContentType := some "application/json",
               Body := .raw B }) := by
  have hraw : GetFollowingRaw false db username = .ok (B, T) := by
    simp [GetFollowingRaw, hrow]
  have htr : T.Truncate Second = T - T % 1000000000 := by
    simp [Time.Truncate, Second]
  constructor
  · intro h
    have hc : (T.Before (ifModTimeOf r) || (T.Truncate Second).Equal (ifModTimeOf r)) = true := by
      rw [htr]
      simp only [Time.Before, Time.Equal, Bool.or_eq_true, decide_eq_true_eq]
      exact h
    simp only [getFollowing, hpath, huser, checkAuth_true _ _ _ _ hauth, hraw, hc,
      Option.isNone_some, Bool.false_eq_true, if_false, Bool.not_true, if_true]
  · intro h
    have hc : (T.Before (ifModTimeOf r) || (T.Truncate Second).Equal (ifModTimeOf r)) = false := by
      rw [htr, Bool.eq_false_iff]
      simp only [Time.Before, Time.Equal, ne_eq, Bool.or_eq_true, decide_eq_true_eq]
      exact h
    simp only [getFollowing, hpath, huser, checkAuth_true _ _ _ _ hauth, hraw, hc,
      Option.isNone_some, Bool.false_eq_true, if_false, Bool.not_true]

theorem getFollowing_conditional_witness :
    getFollowing sampleExt sampleConf false sampleDB
        (sampleGetFollowingRequest (some (some (63839664000 * Second)))) =
      some { Code := 304, LastModified := some (63839664000 * Second), ContentType := none,
             Body := .text "" } ∧
    getFollowing sampleExt sampleConf false sampleDB (sampleGetFollowingRequest none) =
      some { Code := 200, LastModified := some (63839664000 * Second),
             ContentType := some "application/json",
             Body := .raw (.arr [.str "@bob@example.com"]) } :=
  ⟨(getFollowing_conditional sampleExt sampleConf sampleDB
      (sampleGetFollowingRequest (some (some (63839664000 * Second)))) "alice" "hash-of-secret"
      (.arr [.str "@bob@example.com"]) (63839664000 * Second)
      (by decide) (by decide) (by decide) (by rfl)).1 (by decide),
   (getFollowing_conditional sampleExt sampleConf sampleDB
      (sampleGetFollowingRequest none) "alice" "hash-of-secret"
      (.arr [.str "@bob@example.com"]) (63839664000 * Second)
      (by decide) (by decide) (by decide) (by rfl)).2 (by decide)⟩

/-! ## Usernames of the configuration -/

/-- C18: `validUsername` rejects every username that contains the underscore,
which the documented character set allows: the byte 0x5F lies in the range
0x3A to 0x60 that the loop rejects.  `a_b` and `_` are rejected although they
are 1 to 40 bytes of the character set; names of lowercase letters and digits
are accepted. -/
theorem validUsername_rejects_underscore :
    validUsername "a_b" = false ∧ validUsernameSpec "a_b" = true ∧
    validUsername "_" = false ∧ validUsernameSpec "_" = true ∧
    validUsername "alice1" = true ∧ validUsernameSpec "alice1" = true := by
  decide

/-! ## Encoding the avatar map -/

theorem mem_insertByKey (e x : String × Json) (l : List (String × Json)) :
    x ∈ insertByKey e l ↔ x = e ∨ x ∈ l := by
  induction l with
  | nil => simp [insertByKey]
  | cons y ys ih =>
    unfold insertByKey
    split
    · simp
    · simp only [List.mem_cons, ih]
      tauto

theorem mem_sortByKey (x : String × Json) (l : List (String × Json)) :
    x ∈ sortByKey l ↔ x ∈ l := by
  unfold sortByKey
  induction l with
  | nil => simp
  | cons y ys ih =>
    simp only [List.foldr_cons, mem_insertByKey, ih, List.mem_cons]

theorem append_question_ne_empty (p s : String) : p ++ "?" ++ s ≠ "" := by
  intro h
  have hlen := congrArg String.length h
  simp only [String.length_append] at hlen
  have h1 : "?".length = 1 := by decide
  have h0 : "".length = 0 := by decide
  omega

/-- C19: for an `AvatarMap` whose number is set to `n`, `MarshalJSON` writes
`null` when `Paths` is nil, is empty, or has no or an empty `original` path;
otherwise it writes an object whose members are exactly the keys of `Paths`,
each with its path followed by `?` and `n` in decimal.  So it never writes an
object whose `original` value is the empty string. -/
theorem AvatarMap_MarshalJSON (av : AvatarMap) (n : Int) (hnum : av.Num = some n) :
    (av.Paths = none ∨ av.Paths = some [] ∨ av.path "original" = "" →
      av.MarshalJSON = some .null) ∧
    (∀ m, av.Paths = some m → m ≠ [] → av.path "original" ≠ "" →
      ∃ kvs, av.MarshalJSON = some (.obj kvs) ∧
        ∀ k v, (k, v) ∈ kvs ↔ ∃ p, (k, p) ∈ m ∧ v = .str (p ++ "?" ++ Itoa n)) ∧
    (∀ kvs, av.MarshalJSON = some (.obj kvs) → ("original", Json.str "") ∉ kvs) := by
  refine ⟨?_, ?_, ?_⟩
  · intro h
    unfold AvatarMap.MarshalJSON
    have hc : av.Paths.isNone = true ∨ (av.Paths.getD []).length = 0 ∨ av.path "original" = "" := by
      rcases h with h | h | h
      · exact Or.inl (by rw [h]; rfl)
      · exact Or.inr (Or.inl (by rw [h]; rfl))
      · exact Or.inr (Or.inr h)
    rw [if_pos hc]
  · intro m hm hne horig
    unfold AvatarMap.MarshalJSON
    have hc : ¬ (av.Paths.isNone = true ∨ (av.Paths.getD []).length = 0
        ∨ av.path "original" = "") := by
      rw [hm]
      rintro (h | h | h)
      · simp at h
      · simp only [Option.getD_some, List.length_eq_zero] at h
        exact hne h
      · exact horig h
    rw [if_neg hc, hnum, hm]
    refine ⟨_, rfl, ?_⟩
    intro k v
    simp only [mem_sortByKey, Option.getD_some, List.mem_map, Prod.mk.injEq]
    constructor
    · rintro ⟨⟨k2, p⟩, hmem, hk, hv⟩
      subst hk
      exact ⟨p, hmem, hv.symm⟩
    · rintro ⟨p, hmem, hv⟩
      exact ⟨(k, p), hmem, rfl, hv.symm⟩
  · intro kvs h
    unfold AvatarMap.MarshalJSON at h
    split at h
    · simp at h
    · rw [hnum] at h
      simp only [Option.some.injEq, Json.obj.injEq] at h
      subst h
      intro hmem
      rw [mem_sortByKey, List.mem_map] at hmem
      obtain ⟨⟨k, p⟩, -, heq⟩ := hmem
      simp only [Prod.mk.injEq, Json.str.injEq] at heq
      exact append_question_ne_empty p (Itoa n) heq.2

theorem AvatarMap_MarshalJSON_witness :
    (some [("original", "/.well-known/fmrl/avatars/alice/original")] = none ∨
      some [("original", "/.well-known/fmrl/avatars/alice/original")] = some [] ∨
      AvatarMap.path { Paths := some [("original", "/.well-known/fmrl/avatars/alice/original")],
                       Num := some 3 } "original" = "" →
      AvatarMap.MarshalJSON
        { Paths := some [("original", "/.well-known/fmrl/avatars/alice/original")],
          Num := some 3 } = some .null) ∧
    (∀ m, some [("original", "/.well-known/fmrl/avatars/alice/original")] = some m → m ≠ [] →
      AvatarMap.path { Paths := some [("original", "/.well-known/fmrl/avatars/alice/original")],
                       Num := some 3 } "original" ≠ "" →
      ∃ kvs, AvatarMap.MarshalJSON
          { Paths := some [("original", "/.well-known/fmrl/avatars/alice/original")],
            Num := some 3 } = some (.obj kvs) ∧
        ∀ k v, (k, v) ∈ kvs ↔ ∃ p, (k, p) ∈ m ∧ v = .str (p ++ "?" ++ Itoa 3)) ∧
    (∀ kvs, AvatarMap.MarshalJSON
        { Paths := some [("original", "/.well-known/fmrl/avatars/alice/original")],
          Num := some 3 } = some (.obj kvs) → ("original", Json.str "") ∉ kvs) :=
  AvatarMap_MarshalJSON
    { Paths := some [("original", "/.well-known/fmrl/avatars/alice/original")], Num := some 3 }
    3 rfl

end Whatsup
